import Mathlib

/-!
Formal model of the incremental synchronization core of the
SharePoint/OneDrive downloader (OneDriveSub/sync_manager.py,
OneDriveSub/manual_sync_manager.py, OneDriveSub/onedrive_client.py),
with proofs about exclusion filtering, download decisions, state
persistence and the crash behaviour of the state store.

External collaborators are modelled explicitly:
* the local filesystem is a map from paths to file metadata, with
  directories kept in a separate set (the code only ever asks
  os.path.exists and never stores a file and a directory at one path);
* timestamps are natural numbers, with an abstract parse function
  standing for datetime.fromisoformat, and one pass sees a single
  wall-clock value (int(time.time()) does not advance mid-pass);
* the outcome of a network download is an oracle download_ok, a failing
  download standing for an exception raised inside
  OneDriveClient.download_file and caught by the calling handler;
  likewise mkdir_ok stands for os.makedirs succeeding;
* Python string primitives (lower, endswith, startswith, the in
  operator, os.path.join for relative POSIX components) are modelled on
  the character lists underlying Lean strings.
-/

namespace SPD

/-- ASCII lower-casing of one character, modelling str.lower per char. -/
def char_lower (c : Char) : Char :=
  if 65 ≤ c.toNat ∧ c.toNat ≤ 90 then Char.ofNat (c.toNat + 32) else c

/-- Python str.lower (ASCII fragment). -/
def str_lower (s : String) : String := ⟨s.data.map char_lower⟩

/-- Python str.endswith. -/
def str_ends_with (s t : String) : Bool := t.data.isSuffixOf s.data

/-- Python str.startswith. -/
def str_starts_with (s t : String) : Bool := t.data.isPrefixOf s.data

/-- Helper for substring containment: pat occurs in the list. -/
def chars_contain (pat : List Char) : List Char → Bool
  | [] => pat.isEmpty
  | c :: rest => pat.isPrefixOf (c :: rest) || chars_contain pat rest

/-- Python substring containment, the in operator on strings. -/
def str_contains (s t : String) : Bool := chars_contain t.data s.data

/-- Python truthiness of a string: nonempty. -/
def str_truthy (s : String) : Bool := !s.data.isEmpty

/-- Python truthiness of an optional string: present and nonempty. -/
def opt_str_truthy : Option String → Bool
  | none => false
  | some s => str_truthy s

/-- os.path.join for two relative POSIX components, following the
posixpath rule: an empty head yields the tail, a head ending in the
separator is concatenated directly, otherwise a separator is inserted.
The absolute-tail override of os.path.join is not modelled because
Graph item names and the stripped parent paths never begin with a
slash. -/
def joinPath (a b : String) : String :=
  if a = "" then b
  else if a.data.getLast? = some '/' then a ++ b
  else a ++ "/" ++ b

/-- os.path.join with three components. -/
def join3 (a b c : String) : String := joinPath (joinPath a b) c

/-- Python replace of every backslash by a forward slash
(a single-character pattern, hence a character map). -/
def replace_backslashes (s : String) : String :=
  ⟨s.data.map fun c => if c = '\x5c' then '/' else c⟩

/-- The characters after the last colon of a list, modelling
path.split(colon)[-1]. -/
def after_last_colon (l : List Char) : List Char :=
  (l.reverse.takeWhile (fun c => !(c = ':'))).reverse

/-- Metadata the filesystem keeps for a regular file. -/
structure FileMeta where
  mtime : Nat
  size : Nat
deriving DecidableEq

/-- The local filesystem restricted to regular files. -/
abbrev FS := String → Option FileMeta

/-- A remote drive item as surfaced by the Graph JSON: the facet keys
(file, folder, deleted), name, size, lastModifiedDateTime and
parentReference.path. -/
structure RemoteItem where
  id : String
  name : String
  parentRefPath : String
  isFile : Bool
  isFolder : Bool
  deleted : Bool
  size : Nat
  lastModifiedDateTime : Option String
deriving DecidableEq

/-- OneDriveClient._get_parent_path: keep the part after the last colon
of parentReference.path and strip leading slashes. -/
def get_parent_path (item : RemoteItem) : String :=
  let path : String := ⟨after_last_colon item.parentRefPath.data⟩
  ⟨path.data.dropWhile (fun c => c = '/')⟩

/-- Point update of a string-keyed map. -/
def map_insert {α : Type} (f : String → Option α) (k : String) (v : α) :
    String → Option α :=
  fun q => if q = k then some v else f q

/-- Point insertion into a set of strings. -/
def set_true (d : String → Bool) (k : String) : String → Bool :=
  fun q => if q = k then true else d q

/-- The sync options both manager classes take in __init__ together with
the exclusion lists read from config. The constructor stores max_files
only in test mode; theorems state that hypothesis explicitly. -/
structure SyncOptions where
  check_only : Bool
  test_mode : Bool
  max_files : Option Nat
  target_folder : Option String
  root_only : Bool
  force_full_sync : Bool
  force_save_state : Bool
  file_types_to_exclude : List String
  paths_to_exclude : List String
deriving DecidableEq

/-- The modelled environment: the download root, timestamp parsing, the
mtime a freshly downloaded file receives, the success oracles for
downloads and directory creation, the current wall-clock time, the
children of the drive root (me/drive/root/children), and tz_aware:
whether datetime.fromisoformat of the given timestamp string (after the
Z to +00:00 replacement) yields a timezone-aware value. Graph
timestamps are Z-suffixed, so tz_aware is true on real data; an
ordering comparison between the timezone-naive datetime.fromtimestamp
value and an aware value raises TypeError in Python. -/
structure Env where
  download_path : String
  parse_time : String → Nat
  now_mtime : Nat
  download_ok : RemoteItem → Bool
  mkdir_ok : RemoteItem → Bool
  time : Nat
  root_children : List RemoteItem
  tz_aware : String → Bool

/-- The entry manual sync stores in its files map after a download. -/
structure FileEntry where
  id : String
  name : String
  lastModifiedDateTime : Option String
  size : Nat
  path : String
deriving DecidableEq

/-- The mutable state of one manager instance, together with ghost event
logs (downloads, would-download lines, per-item errors, acknowledged
deletions) mirroring the log statements of the code. The cursor manager
uses delta_link, the manual manager uses file_state. -/
structure SState where
  delta_link : Option String
  file_state : String → Option FileEntry
  files_processed : Nat
  fs : FS
  dirs : String → Bool
  downloads : List String
  would_log : List String
  errors : List String
  deletions : List String

/-- The state-file key of an item in the manual strategy:
os.path.join(parent_path, name).replace(backslash, slash). -/
def path_key (item : RemoteItem) : String :=
  replace_backslashes (joinPath (get_parent_path item) item.name)

/-- The on-disk path of an item:
os.path.join(download_path, parent_path, name). -/
def local_file_path (env : Env) (item : RemoteItem) : String :=
  join3 env.download_path (get_parent_path item) item.name

/-- The test-mode file cap test:
max_files is not None and files_processed is at least max_files. -/
def max_files_reached (cfg : SyncOptions) (fp : Nat) : Bool :=
  match cfg.max_files with
  | some m => decide (m ≤ fp)
  | none => false

/-- The target-folder restriction of process_item: skip when a target
folder is set and neither the full path nor the parent path starts with
it nor the name equals it. -/
def target_skip (cfg : SyncOptions) (item : RemoteItem) : Bool :=
  let name := item.name
  let parent_path := get_parent_path item
  let full_path := if str_truthy parent_path then joinPath parent_path name else name
  match cfg.target_folder with
  | none => false
  | some tf =>
    str_truthy tf &&
      !(str_starts_with full_path tf || str_starts_with parent_path tf
        || decide (name = tf))

/-- The delta link written when none is available:
a dummy token URL built from int(time.time()). -/
def dummy_delta_link (t : Nat) : String :=
  "https://graph.microsoft.com/v1.0/me/drive/root/delta?token=dummy_" ++ toString t

/-- The JSON object SyncManager.save_state writes. -/
structure SaveRec where
  delta_link : String
  last_sync : Nat
  version : String
  sync_type : String
deriving DecidableEq

/-- The in-memory fixup and record construction of
SyncManager.save_state: fabricate a dummy delta link when none is set,
then build the state object. Returns the updated in-memory delta link
together with the record. -/
def save_state_record (delta_link : Option String) (root_only : Bool) (t : Nat) :
    String × SaveRec :=
  let dl := match delta_link with
    | some l => l
    | none => dummy_delta_link t
  (dl, { delta_link := dl, last_sync := t, version := "1.0",
         sync_type := if root_only then "root_only" else "full" })

/-- The delta-link validation of SyncManager.load_state: a stored link
counts only when it is a string starting with http. -/
def validate_delta_link (dl : Option String) : Option String :=
  match dl with
  | some l => if str_starts_with l "http" then some l else none
  | none => none

namespace SyncManager

/-- SyncManager.should_process_item: deletion markers always pass, then
the case-insensitive extension exclusions, then the path-substring
exclusions. -/
def should_process_item (cfg : SyncOptions) (item : RemoteItem) : Bool :=
  if item.deleted then true
  else if cfg.file_types_to_exclude.any
      (fun ext => str_ends_with (str_lower item.name) (str_lower ext)) then false
  else if cfg.paths_to_exclude.any
      (fun p => str_contains (joinPath (get_parent_path item) item.name) p) then false
  else true

/-- SyncManager.handle_folder: create the directory when absent;
a makedirs failure is caught and logged. -/
def handle_folder (env : Env) (st : SState) (item : RemoteItem) : SState :=
  if st.dirs (join3 env.download_path (get_parent_path item) item.name) then st
  else if env.mkdir_ok item then
    { st with dirs := set_true st.dirs (join3 env.download_path (get_parent_path item) item.name) }
  else { st with errors := item.name :: st.errors }

/-- Outcome of the modified-time comparison in SyncManager.handle_file. -/
inductive MtimeOutcome where
  | skip
  | raises
  | proceed
deriving DecidableEq

/-- The local-vs-remote modified-time check of SyncManager.handle_file:
when a local file exists and the item carries a timestamp, the code
orders datetime.fromtimestamp (timezone-naive) against
datetime.fromisoformat of the Z-replaced string. When that parsed value
is timezone-aware — always the case for Z-suffixed Graph timestamps —
the comparison raises TypeError; when it is naive, local at least
remote skips; otherwise (and when no local file or no timestamp
exists) the function proceeds towards the download. -/
def mtime_check (env : Env) (st : SState) (item : RemoteItem) : MtimeOutcome :=
  match st.fs (local_file_path env item), item.lastModifiedDateTime with
  | some meta, some r =>
    if env.tz_aware r then .raises
    else if env.parse_time r ≤ meta.mtime then .skip
    else .proceed
  | _, _ => .proceed

/-- SyncManager.handle_file: run the modified-time check (an exception
escaping it is caught by the function-level handler, logging a per-item
error), skip when it says the local copy is up to date, log only in
check-only mode, otherwise download (the client also creates the
parent directory); a download failure is caught and logged. -/
def handle_file (cfg : SyncOptions) (env : Env) (st : SState) (item : RemoteItem) :
    SState :=
  match mtime_check env st item with
  | .skip => st
  | .raises => { st with errors := item.name :: st.errors }
  | .proceed =>
    if cfg.check_only then { st with would_log := item.name :: st.would_log }
    else if env.download_ok item then
      { st with
        fs := map_insert st.fs (local_file_path env item)
          { mtime := env.now_mtime, size := item.size },
        dirs := set_true st.dirs (joinPath env.download_path (get_parent_path item)),
        downloads := local_file_path env item :: st.downloads }
    else { st with errors := item.name :: st.errors }

/-- SyncManager.process_item: exclusion filter, deletion handling,
target-folder and root-only restrictions, the test-mode cap, then the
kind dispatch; in test mode every handled file bumps files_processed. -/
def process_item (cfg : SyncOptions) (env : Env) (st : SState) (item : RemoteItem) :
    SState :=
  if !(should_process_item cfg item) then st
  else if item.deleted then { st with deletions := item.id :: st.deletions }
  else if target_skip cfg item then st
  else if cfg.root_only && str_truthy (get_parent_path item) then st
  else if cfg.root_only && item.isFolder then st
  else if cfg.test_mode && max_files_reached cfg st.files_processed then st
  else if item.isFolder then handle_folder env st item
  else if item.isFile then
    if cfg.test_mode then
      { handle_file cfg env st item with
        files_processed := (handle_file cfg env st item).files_processed + 1 }
    else handle_file cfg env st item
  else st

/-- The per-pass loop over the change set. -/
def process_items (cfg : SyncOptions) (env : Env) (items : List RemoteItem)
    (st : SState) : SState :=
  items.foldl (process_item cfg env) st

/-- The loop of SyncManager.download_root_files_directly, with the local
files_downloaded counter; a download failure aborts the remaining loop
because the exception is caught at function level. -/
def download_root_loop (cfg : SyncOptions) (env : Env) :
    List RemoteItem → Nat → SState → SState
  | [], _, st => st
  | f :: rest, cnt, st =>
    if cfg.test_mode && max_files_reached cfg cnt then st
    else if cfg.check_only then
      download_root_loop cfg env rest cnt { st with would_log := f.name :: st.would_log }
    else if env.download_ok f then
      download_root_loop cfg env rest (cnt + 1)
        { st with
          fs := map_insert st.fs (local_file_path env f)
            { mtime := env.now_mtime, size := f.size },
          downloads := local_file_path env f :: st.downloads,
          files_processed := st.files_processed + 1 }
    else st

/-- SyncManager.download_root_files_directly: fetch the root children,
keep the file items, download each under the cap. -/
def download_root_files_directly (cfg : SyncOptions) (env : Env) (st : SState) :
    SState :=
  if (env.root_children.filter (fun it => it.isFile)).isEmpty then st
  else download_root_loop cfg env (env.root_children.filter (fun it => it.isFile)) 0 st

/-- The result of one delta request: either an unrecoverable retrieval
failure (network or auth exception, or a response without a value key)
or the aggregated item list with the optional fresh delta link. -/
inductive DeltaResponse where
  | failure
  | ok (items : List RemoteItem) (new_delta_link : Option String)

/-- The per-pass counter reset (files_processed and the ghost event
logs of one pass). -/
def reset_pass (st : SState) : SState :=
  { st with files_processed := 0, downloads := [], would_log := [],
            errors := [], deletions := [] }

/-- The early delta-link assignment of perform_sync: adopt the fresh
link from the response, or fabricate a dummy one when force-save-state
is set. -/
def set_initial_delta (cfg : SyncOptions) (env : Env) (ndl : Option String)
    (st : SState) : SState :=
  match ndl with
  | some l => { st with delta_link := some l }
  | none =>
    if cfg.force_save_state then
      { st with delta_link := some (dummy_delta_link env.time) }
    else st

/-- The save section at the end of perform_sync: save when the response
carried a delta link, save with a fabricated dummy link when
force-save-state is set, otherwise leave the stored state untouched. -/
def save_phase (cfg : SyncOptions) (env : Env) (ndl : Option String) (st : SState) :
    SState × Option SaveRec :=
  match ndl with
  | some _ =>
    let p := save_state_record st.delta_link cfg.root_only env.time
    ({ st with delta_link := some p.fst }, some p.snd)
  | none =>
    if cfg.force_save_state then
      let st4 := { st with delta_link := some (dummy_delta_link env.time) }
      let p := save_state_record st4.delta_link cfg.root_only env.time
      ({ st4 with delta_link := some p.fst }, some p.snd)
    else (st, none)

/-- The summary section of perform_sync: in plain root-only mode with no
downloads and no delta link, fall back to direct root downloads. -/
def summary (cfg : SyncOptions) (env : Env) (st : SState) : SState :=
  if !cfg.check_only && !cfg.test_mode && cfg.root_only
      && decide (st.files_processed = 0) && !(opt_str_truthy st.delta_link) then
    download_root_files_directly cfg env st
  else st

/-- The result of one sync pass: the overall verdict, the in-memory
state afterwards, and the state record persisted by save_state (none
when nothing was saved). -/
structure PassResult where
  success : Bool
  state : SState
  saved : Option SaveRec

/-- SyncManager.perform_sync over one delta response. -/
def perform_sync (cfg : SyncOptions) (env : Env) (resp : DeltaResponse)
    (st0 : SState) : PassResult :=
  match resp with
  | .failure => { success := false, state := reset_pass st0, saved := none }
  | .ok items ndl =>
    let st2 := set_initial_delta cfg env ndl (reset_pass st0)
    let st3 := process_items cfg env items st2
    let sp := save_phase cfg env ndl st3
    { success := true, state := summary cfg env sp.fst, saved := sp.snd }

end SyncManager

/-- The file metadata entry written into the manual files map after a
successful download. -/
def new_entry (item : RemoteItem) : FileEntry :=
  { id := item.id, name := item.name,
    lastModifiedDateTime := item.lastModifiedDateTime,
    size := item.size, path := path_key item }

namespace ManualSyncManager

/-- ManualSyncManager.should_process_item: the case-insensitive
extension exclusions, then the path-substring exclusions; unlike the
cursor variant there is no deletion-marker guard. -/
def should_process_item (cfg : SyncOptions) (item : RemoteItem) : Bool :=
  if cfg.file_types_to_exclude.any
      (fun ext => str_ends_with (str_lower item.name) (str_lower ext)) then false
  else if cfg.paths_to_exclude.any
      (fun p => str_contains (joinPath (get_parent_path item) item.name) p) then false
  else true

/-- ManualSyncManager.handle_folder: create the directory when absent;
a makedirs failure is caught and logged. -/
def handle_folder (env : Env) (st : SState) (item : RemoteItem) : SState :=
  if st.dirs (join3 env.download_path (get_parent_path item) item.name) then st
  else if env.mkdir_ok item then
    { st with dirs := set_true st.dirs (join3 env.download_path (get_parent_path item) item.name) }
  else { st with errors := item.name :: st.errors }

/-- The need_download decision of ManualSyncManager.handle_file: the
stored entry differs in modification time or size, or no entry exists;
or a local file exists with a different size; or no local file
exists. -/
def need_download (env : Env) (fstate : String → Option FileEntry) (fs : FS)
    (item : RemoteItem) : Bool :=
  ((match fstate (path_key item) with
    | some stored =>
      (match item.lastModifiedDateTime with
       | some r => decide (¬ stored.lastModifiedDateTime = some r)
       | none => false)
      || decide (¬ item.size = stored.size)
    | none => true)
   || (match fs (local_file_path env item) with
       | some meta => decide (¬ meta.size = item.size)
       | none => false))
  || (fs (local_file_path env item)).isNone

/-- ManualSyncManager.handle_file: in check-only mode only log; when a
download is needed, download (the client creates the parent directory),
then record the entry in the files map and bump files_processed; a
download failure is caught before any state update. -/
def handle_file (cfg : SyncOptions) (env : Env) (st : SState) (item : RemoteItem) :
    SState :=
  let need := need_download env st.file_state st.fs item
  if cfg.check_only then
    if need then { st with would_log := item.name :: st.would_log } else st
  else if need then
    if env.download_ok item then
      { st with
        fs := map_insert st.fs (local_file_path env item)
          { mtime := env.now_mtime, size := item.size },
        dirs := set_true st.dirs (joinPath env.download_path (get_parent_path item)),
        file_state := map_insert st.file_state (path_key item) (new_entry item),
        downloads := local_file_path env item :: st.downloads,
        files_processed := st.files_processed + 1 }
    else { st with errors := item.name :: st.errors }
  else st

/-- ManualSyncManager.process_item: exclusion filter, target-folder and
root-only restrictions, the test-mode cap, then the kind dispatch (no
deletion branch); in test mode every handled file bumps
files_processed again. -/
def process_item (cfg : SyncOptions) (env : Env) (st : SState) (item : RemoteItem) :
    SState :=
  if !(should_process_item cfg item) then st
  else if target_skip cfg item then st
  else if cfg.root_only && str_truthy (get_parent_path item) then st
  else if cfg.root_only && item.isFolder then st
  else if cfg.test_mode && max_files_reached cfg st.files_processed then st
  else if item.isFolder then handle_folder env st item
  else if item.isFile then
    if cfg.test_mode then
      { handle_file cfg env st item with
        files_processed := (handle_file cfg env st item).files_processed + 1 }
    else handle_file cfg env st item
  else st

/-- The per-pass loop over the listed items. -/
def process_items (cfg : SyncOptions) (env : Env) (items : List RemoteItem)
    (st : SState) : SState :=
  items.foldl (process_item cfg env) st

/-- The result of obtaining the full listing: either an unrecoverable
retrieval failure or the aggregated items (the recursive walk of
get_all_files_recursive, or the root children in root-only mode). -/
inductive ListingResult where
  | failure
  | ok (items : List RemoteItem)

/-- The item list a manual pass iterates over: in root-only mode only
the file items of the retrieved list. -/
def listed_items (cfg : SyncOptions) (raw : List RemoteItem) : List RemoteItem :=
  if cfg.root_only then raw.filter (fun it => it.isFile) else raw

/-- The JSON object ManualSyncManager.save_state writes. -/
structure MSaveRec where
  files : String → Option FileEntry
  last_sync : Nat
  version : String
  sync_type : String

/-- The result of one manual sync pass. -/
structure MPassResult where
  success : Bool
  state : SState
  saved : Option MSaveRec

/-- ManualSyncManager.perform_sync over one listing: process every
item, then always save the state. -/
def perform_sync (cfg : SyncOptions) (env : Env) (listing : ListingResult)
    (st0 : SState) : MPassResult :=
  match listing with
  | .failure => { success := false, state := SyncManager.reset_pass st0, saved := none }
  | .ok raw =>
    let st2 := process_items cfg env (listed_items cfg raw) (SyncManager.reset_pass st0)
    { success := true, state := st2,
      saved := some { files := st2.file_state, last_sync := env.time,
                      version := "1.0",
                      sync_type := if cfg.root_only then "root_only" else "full" } }

end ManualSyncManager

/-! ## The state store on disk

A separate, finer model of SyncManager.save_state and
SyncManager.load_state for the crash-safety analysis: the three
involved paths (the state file, its .bak sibling and its .tmp sibling)
with explicit file contents, and the sequence of atomic filesystem
operations the save performs. -/

/-- Possible content of one of the state-store paths: a valid record,
an empty file, or bytes that do not parse as JSON. -/
inductive FileContent where
  | valid (p : SaveRec)
  | empty
  | corrupt
deriving DecidableEq

/-- The three paths the state store touches. -/
structure StateFiles where
  state_file : Option FileContent
  bak_file : Option FileContent
  tmp_file : Option FileContent
deriving DecidableEq

/-- One atomic filesystem operation of save_state, by position in the
sequence: operation 0 writes the full record to the .tmp sibling,
operation 1 renames the state file to .bak when it exists (os.replace),
operation 2 renames .tmp onto the state file (os.replace). Later
indices do nothing. -/
def save_step (new : SaveRec) (fsys : StateFiles) : Nat → StateFiles
  | 0 => { fsys with tmp_file := some (.valid new) }
  | 1 =>
    match fsys.state_file with
    | some c => { fsys with bak_file := some c, state_file := none }
    | none => fsys
  | 2 => { fsys with state_file := fsys.tmp_file, tmp_file := none }
  | _ + 3 => fsys

/-- The first k atomic operations of save_state applied in order; a
crash after the k-th operation leaves exactly this filesystem. -/
def save_run (new : SaveRec) (fsys : StateFiles) : Nat → StateFiles
  | 0 => fsys
  | k + 1 => save_step new (save_run new fsys k) k

/-- SyncManager.load_state on the modelled paths: a missing or empty
state file degrades to no state; a state file that does not parse
falls back to the .bak sibling; the .tmp sibling is never consulted. -/
def load_state_files (fsys : StateFiles) : Option SaveRec :=
  match fsys.state_file with
  | none => none
  | some .empty => none
  | some (.valid p) => some p
  | some .corrupt =>
    match fsys.bak_file with
    | some (.valid p) => some p
    | _ => none

/-! ## Shared facts about the string model -/

theorem str_data_append (s t : String) : (s ++ t).data = s.data ++ t.data := rfl

theorem str_starts_with_append {a p : String} (b : String)
    (h : str_starts_with a p = true) : str_starts_with (a ++ b) p = true := by
  have h1 : p.data <+: a.data := by
    simpa [str_starts_with, List.isPrefixOf_iff_prefix] using h
  have h2 : p.data <+: (a ++ b).data := by
    rw [str_data_append]
    exact h1.trans (List.prefix_append _ _)
  simpa [str_starts_with, List.isPrefixOf_iff_prefix] using h2

/-! ## C9: the fabricated dummy cursor -/

/-- C9: every state record the cursor-strategy save writes carries a
cursor string: when no delta link is set, save_state fabricates a dummy
https link; the dummy starts with https://; load_state accepts any
string starting with http, so the fabricated link is treated as a real
cursor on the next run; when a link is set, it is written as is. -/
theorem c9_dummy_cursor (t : Nat) (ro : Bool) :
    (save_state_record none ro t).2.delta_link = dummy_delta_link t
  ∧ str_starts_with (dummy_delta_link t) "https://" = true
  ∧ validate_delta_link (some (dummy_delta_link t)) = some (dummy_delta_link t)
  ∧ ∀ l, (save_state_record (some l) ro t).2.delta_link = l := by
  have hs : str_starts_with (dummy_delta_link t) "https://" = true :=
    str_starts_with_append (toString t) (by decide)
  have hh : str_starts_with (dummy_delta_link t) "http" = true :=
    str_starts_with_append (toString t) (by decide)
  refine ⟨rfl, hs, ?_, fun l => rfl⟩
  simp [validate_delta_link, hh]

/-! ## C5: the exclusion filter -/

/-- C5, counterexample: with excluded extension .tmp, the deletion
marker x.tmp is rejected by the manual-strategy filter (it has no
deletion-marker guard), while the cursor-strategy filter accepts the
same item even though its name ends with the excluded extension; so the
claimed pair of universal properties fails on the code. -/
theorem c5_counterexample :
    ManualSyncManager.should_process_item
      { check_only := false, test_mode := false, max_files := none,
        target_folder := none, root_only := false, force_full_sync := false,
        force_save_state := false, file_types_to_exclude := [".tmp"],
        paths_to_exclude := [] }
      { id := "9", name := "x.tmp", parentRefPath := "/drive/root:",
        isFile := false, isFolder := false, deleted := true, size := 0,
        lastModifiedDateTime := none } = false
  ∧ SyncManager.should_process_item
      { check_only := false, test_mode := false, max_files := none,
        target_folder := none, root_only := false, force_full_sync := false,
        force_save_state := false, file_types_to_exclude := [".tmp"],
        paths_to_exclude := [] }
      { id := "9", name := "x.tmp", parentRefPath := "/drive/root:",
        isFile := false, isFolder := false, deleted := true, size := 0,
        lastModifiedDateTime := none } = true := by
  constructor
  · rfl
  · rfl

/-- C5 (amended): for every item that is not a deletion marker and
whose name ends with a configured excluded extension
(case-insensitively), both filters return false; every deletion marker
passes the cursor-strategy filter regardless of the exclusion rules;
the manual-strategy filter ignores the deletion flag entirely, so a
deletion marker matching an exclusion rule is filtered out there. -/
theorem c5_amended (cfg : SyncOptions) (item : RemoteItem) :
    (item.deleted = false →
      cfg.file_types_to_exclude.any
        (fun ext => str_ends_with (str_lower item.name) (str_lower ext)) = true →
      SyncManager.should_process_item cfg item = false
        ∧ ManualSyncManager.should_process_item cfg item = false)
  ∧ (item.deleted = true → SyncManager.should_process_item cfg item = true)
  ∧ (∀ b, ManualSyncManager.should_process_item cfg { item with deleted := b }
        = ManualSyncManager.should_process_item cfg item) := by
  refine ⟨fun hdel hext => ⟨?_, ?_⟩, fun hdel => ?_, fun b => rfl⟩
  · simp [SyncManager.should_process_item, hdel, hext]
  · simp [ManualSyncManager.should_process_item, hext]
  · simp [SyncManager.should_process_item, hdel]

/-- Witness for c5_amended at a concrete excluded non-deletion item. -/
theorem c5_witness :
    SyncManager.should_process_item
      { check_only := false, test_mode := false, max_files := none,
        target_folder := none, root_only := false, force_full_sync := false,
        force_save_state := false, file_types_to_exclude := [".TMP"],
        paths_to_exclude := [] }
      { id := "7", name := "Scratch.tmp", parentRefPath := "/drive/root:/docs",
        isFile := true, isFolder := false, deleted := false, size := 4,
        lastModifiedDateTime := none } = false
  ∧ ManualSyncManager.should_process_item
      { check_only := false, test_mode := false, max_files := none,
        target_folder := none, root_only := false, force_full_sync := false,
        force_save_state := false, file_types_to_exclude := [".TMP"],
        paths_to_exclude := [] }
      { id := "7", name := "Scratch.tmp", parentRefPath := "/drive/root:/docs",
        isFile := true, isFolder := false, deleted := false, size := 4,
        lastModifiedDateTime := none } = false :=
  (c5_amended _ _).1 rfl (by decide)

/-! ## C2: crash behaviour of the state store -/

/-- C2, counterexample: start from a valid persisted state, run the
save sequence for the new state and crash after the backup rename but
before the final rename (two atomic operations done, so after the
temporary file was written and before the final rename). A subsequent
load returns neither the previous valid state nor the new one: the
state file is gone and load does not consult the .bak sibling for a
missing (as opposed to malformed) state file. -/
theorem c2_counterexample :
    ¬ (load_state_files
        (save_run
          { delta_link := "https://new", last_sync := 1, version := "1.0",
            sync_type := "full" }
          { state_file := some (.valid
              { delta_link := "https://old", last_sync := 0, version := "1.0",
                sync_type := "full" }),
            bak_file := none, tmp_file := none } 2)
        = some { delta_link := "https://old", last_sync := 0, version := "1.0",
                 sync_type := "full" }
      ∨ load_state_files
        (save_run
          { delta_link := "https://new", last_sync := 1, version := "1.0",
            sync_type := "full" }
          { state_file := some (.valid
              { delta_link := "https://old", last_sync := 0, version := "1.0",
                sync_type := "full" }),
            bak_file := none, tmp_file := none } 2)
        = some { delta_link := "https://new", last_sync := 1, version := "1.0",
                 sync_type := "full" }) := by
  decide

theorem save_run_stable (new : SaveRec) (fsys : StateFiles) :
    ∀ j, save_run new fsys (j + 3) = save_run new fsys 3 := by
  intro j
  induction j with
  | zero => rfl
  | succ j ih =>
    show save_step new (save_run new fsys (j + 3)) (j + 3) = _
    rw [ih]
    rfl

/-- C2 (amended): save writes the full state to a temporary file,
renames the current state file (if any) to .bak, then renames the
temporary file into place. If the sequence is interrupted at any point,
the state file is never left corrupt, and a subsequent load returns the
previous state, the new one, or no state at all (forcing a full
resync). The unamended claim fails between the two renames, where the
previous state has moved to .bak and load reports no state. -/
theorem c2_amended (new : SaveRec) (fsys : StateFiles) (k : Nat)
    (hwf : fsys.state_file = none ∨ ∃ p, fsys.state_file = some (.valid p)) :
    (save_run new fsys k).state_file ≠ some .corrupt
  ∧ (load_state_files (save_run new fsys k) = load_state_files fsys
     ∨ load_state_files (save_run new fsys k) = some new
     ∨ load_state_files (save_run new fsys k) = none) := by
  have htmp2 : (save_run new fsys 2).tmp_file = some (.valid new) := by
    show (save_step new (save_run new fsys 1) 1).tmp_file = _
    rcases hwf with h | ⟨p, h⟩ <;>
      simp [save_run, save_step, h]
  match k with
  | 0 =>
    rcases hwf with h | ⟨p, h⟩ <;> simp [save_run, h]
  | 1 =>
    rcases hwf with h | ⟨p, h⟩ <;>
      simp [save_run, save_step, load_state_files, h]
  | 2 =>
    rcases hwf with h | ⟨p, h⟩ <;>
      simp [save_run, save_step, load_state_files, h]
  | (j + 3) =>
    rw [save_run_stable]
    have hst : (save_run new fsys 3).state_file = some (.valid new) := by
      show (save_step new (save_run new fsys 2) 2).state_file = _
      simp [save_step, htmp2]
    simp [load_state_files, hst]

/-- Witness for c2_amended at the crash point between the two renames,
starting from a valid previous state. -/
theorem c2_witness :
    (save_run
      { delta_link := "https://new", last_sync := 1, version := "1.0",
        sync_type := "full" }
      { state_file := some (.valid
          { delta_link := "https://old", last_sync := 0, version := "1.0",
            sync_type := "full" }),
        bak_file := none, tmp_file := none } 2).state_file
      ≠ some FileContent.corrupt :=
  (c2_amended _ _ 2 (Or.inr ⟨_, rfl⟩)).1

/-! ## Frame lemmas for the cursor manager -/

theorem sm_handle_file_delta (cfg : SyncOptions) (env : Env) (st : SState)
    (it : RemoteItem) :
    (SyncManager.handle_file cfg env st it).delta_link = st.delta_link := by
  unfold SyncManager.handle_file
  (repeat' split) <;> rfl

theorem sm_handle_folder_delta (env : Env) (st : SState) (it : RemoteItem) :
    (SyncManager.handle_folder env st it).delta_link = st.delta_link := by
  unfold SyncManager.handle_folder
  (repeat' split) <;> rfl

theorem sm_process_item_delta (cfg : SyncOptions) (env : Env) (st : SState)
    (it : RemoteItem) :
    (SyncManager.process_item cfg env st it).delta_link = st.delta_link := by
  unfold SyncManager.process_item
  (repeat' split) <;>
    simp [sm_handle_file_delta, sm_handle_folder_delta]

theorem sm_process_items_delta (cfg : SyncOptions) (env : Env)
    (items : List RemoteItem) : ∀ st : SState,
    (SyncManager.process_items cfg env items st).delta_link = st.delta_link := by
  induction items with
  | nil => intro st; rfl
  | cons hd tl ih =>
    intro st
    show (SyncManager.process_items cfg env tl
      (SyncManager.process_item cfg env st hd)).delta_link = _
    rw [ih, sm_process_item_delta]

theorem sm_set_initial_frame (cfg : SyncOptions) (env : Env) (ndl : Option String)
    (st : SState) :
    (SyncManager.set_initial_delta cfg env ndl st).downloads = st.downloads
  ∧ (SyncManager.set_initial_delta cfg env ndl st).fs = st.fs
  ∧ (SyncManager.set_initial_delta cfg env ndl st).file_state = st.file_state
  ∧ (SyncManager.set_initial_delta cfg env ndl st).files_processed
      = st.files_processed := by
  cases ndl with
  | some l => exact ⟨rfl, rfl, rfl, rfl⟩
  | none =>
    cases hf : cfg.force_save_state <;>
      simp [SyncManager.set_initial_delta, hf]

theorem sm_save_phase_frame (cfg : SyncOptions) (env : Env) (ndl : Option String)
    (st : SState) :
    (SyncManager.save_phase cfg env ndl st).fst.downloads = st.downloads
  ∧ (SyncManager.save_phase cfg env ndl st).fst.fs = st.fs
  ∧ (SyncManager.save_phase cfg env ndl st).fst.file_state = st.file_state
  ∧ (SyncManager.save_phase cfg env ndl st).fst.files_processed
      = st.files_processed := by
  cases ndl with
  | some l => exact ⟨rfl, rfl, rfl, rfl⟩
  | none =>
    cases hf : cfg.force_save_state <;>
      simp [SyncManager.save_phase, hf]

theorem sm_summary_id (cfg : SyncOptions) (env : Env) (st : SState)
    (h : cfg.check_only = true ∨ cfg.test_mode = true ∨ cfg.root_only = false) :
    SyncManager.summary cfg env st = st := by
  unfold SyncManager.summary
  rcases h with h | h | h <;> simp [h]

theorem sm_process_items_cons (cfg : SyncOptions) (env : Env) (hd : RemoteItem)
    (tl : List RemoteItem) (st : SState) :
    SyncManager.process_items cfg env (hd :: tl) st
      = SyncManager.process_items cfg env tl
          (SyncManager.process_item cfg env st hd) := rfl

theorem mm_process_items_cons (cfg : SyncOptions) (env : Env) (hd : RemoteItem)
    (tl : List RemoteItem) (st : SState) :
    ManualSyncManager.process_items cfg env (hd :: tl) st
      = ManualSyncManager.process_items cfg env tl
          (ManualSyncManager.process_item cfg env st hd) := rfl

theorem map_insert_self {α : Type} (f : String → Option α) (k : String) (v : α) :
    map_insert f k v k = some v := by
  simp [map_insert]

theorem map_insert_other {α : Type} (f : String → Option α) (k : String) (v : α)
    (q : String) (h : ¬ q = k) : map_insert f k v q = f q := by
  simp [map_insert, h]

theorem mm_handle_file_cases (cfg : SyncOptions) (env : Env) (st : SState)
    (it : RemoteItem) :
    ManualSyncManager.handle_file cfg env st it = st
  ∨ ManualSyncManager.handle_file cfg env st it
      = { st with would_log := it.name :: st.would_log }
  ∨ ManualSyncManager.handle_file cfg env st it
      = { st with errors := it.name :: st.errors }
  ∨ (ManualSyncManager.handle_file cfg env st it
      = { st with
          fs := map_insert st.fs (local_file_path env it)
            { mtime := env.now_mtime, size := it.size },
          dirs := set_true st.dirs
            (joinPath env.download_path (get_parent_path it)),
          file_state := map_insert st.file_state (path_key it) (new_entry it),
          downloads := local_file_path env it :: st.downloads,
          files_processed := st.files_processed + 1 }
     ∧ env.download_ok it = true) := by
  simp only [ManualSyncManager.handle_file]
  (repeat' split) <;> simp_all

/-! ## C3: per-item error containment -/

/-- C3: a sync pass succeeds exactly when the change-set retrieval
succeeded, for every download and makedirs outcome; an item whose
download and directory creation fail leaves the filesystem, the
download log, the directory set and the cursor untouched (only an error
is logged); and the item loop is a plain fold, so the items after any
prefix are processed from whatever state the prefix produced. -/
theorem c3_error_containment (cfg : SyncOptions) (env : Env) (st0 : SState) :
    (∀ (items : List RemoteItem) (ndl : Option String),
      (SyncManager.perform_sync cfg env (.ok items ndl) st0).success = true)
  ∧ (SyncManager.perform_sync cfg env .failure st0).success = false
  ∧ (∀ (st : SState) (it : RemoteItem),
      env.download_ok it = false → env.mkdir_ok it = false →
      (SyncManager.process_item cfg env st it).fs = st.fs
      ∧ (SyncManager.process_item cfg env st it).downloads = st.downloads
      ∧ (SyncManager.process_item cfg env st it).dirs = st.dirs
      ∧ (SyncManager.process_item cfg env st it).delta_link = st.delta_link)
  ∧ (∀ (st : SState) (l1 l2 : List RemoteItem),
      SyncManager.process_items cfg env (l1 ++ l2) st
        = SyncManager.process_items cfg env l2
            (SyncManager.process_items cfg env l1 st)) := by
  refine ⟨fun items ndl => rfl, rfl, fun st it hd hm => ?_, fun st l1 l2 => ?_⟩
  · have hfile : SyncManager.handle_file cfg env st it = st
        ∨ SyncManager.handle_file cfg env st it
            = { st with would_log := it.name :: st.would_log }
        ∨ SyncManager.handle_file cfg env st it
            = { st with errors := it.name :: st.errors } := by
      unfold SyncManager.handle_file
      (repeat' split) <;> simp_all
    have hfold : SyncManager.handle_folder env st it = st
        ∨ SyncManager.handle_folder env st it
            = { st with errors := it.name :: st.errors } := by
      unfold SyncManager.handle_folder
      (repeat' split) <;> simp_all
    unfold SyncManager.process_item
    (repeat' split) <;>
      first
        | exact ⟨rfl, rfl, rfl, rfl⟩
        | (rcases hfold with h | h <;> rw [h] <;> exact ⟨rfl, rfl, rfl, rfl⟩)
        | (rcases hfile with h | h | h <;> rw [h] <;> exact ⟨rfl, rfl, rfl, rfl⟩)
  · exact List.foldl_append _ _ _ _

/-- Witness for c3_error_containment with both failure oracles false. -/
theorem c3_witness :
    (SyncManager.process_item
      { check_only := false, test_mode := false, max_files := none,
        target_folder := none, root_only := false, force_full_sync := false,
        force_save_state := false, file_types_to_exclude := [],
        paths_to_exclude := [] }
      { download_path := "dl", parse_time := fun _ => 0, now_mtime := 5,
        download_ok := fun _ => false, mkdir_ok := fun _ => false, time := 9,
        root_children := [], tz_aware := fun _ => true }
      { delta_link := none, file_state := fun _ => none, files_processed := 0,
        fs := fun _ => none, dirs := fun _ => false, downloads := [],
        would_log := [], errors := [], deletions := [] }
      { id := "1", name := "a.txt", parentRefPath := "/drive/root:",
        isFile := true, isFolder := false, deleted := false, size := 10,
        lastModifiedDateTime := none }).downloads = [] :=
  ((c3_error_containment
      { check_only := false, test_mode := false, max_files := none,
        target_folder := none, root_only := false, force_full_sync := false,
        force_save_state := false, file_types_to_exclude := [],
        paths_to_exclude := [] }
      { download_path := "dl", parse_time := fun _ => 0, now_mtime := 5,
        download_ok := fun _ => false, mkdir_ok := fun _ => false, time := 9,
        root_children := [], tz_aware := fun _ => true }
      { delta_link := none, file_state := fun _ => none, files_processed := 0,
        fs := fun _ => none, dirs := fun _ => false, downloads := [],
        would_log := [], errors := [], deletions := [] }).2.2.1
    { delta_link := none, file_state := fun _ => none, files_processed := 0,
      fs := fun _ => none, dirs := fun _ => false, downloads := [],
      would_log := [], errors := [], deletions := [] }
    { id := "1", name := "a.txt", parentRefPath := "/drive/root:",
      isFile := true, isFolder := false, deleted := false, size := 10,
      lastModifiedDateTime := none } rfl rfl).2.1

/-! ## C4: when the cursor strategy persists state -/

/-- C4: at the end of a cursor pass, state is persisted if and only if
the response carried a fresh delta link or force-save-state was
requested; a fresh link is persisted verbatim; under force-save-state
without a fresh link a synthetic https dummy cursor is written; with
neither, nothing is saved (the stored state stays untouched); a failed
retrieval never saves. -/
theorem c4_state_persistence (cfg : SyncOptions) (env : Env)
    (items : List RemoteItem) (ndl : Option String) (st0 : SState) :
    ((SyncManager.perform_sync cfg env (.ok items ndl) st0).saved.isSome
      ↔ (ndl.isSome ∨ cfg.force_save_state = true))
  ∧ (∀ l, ndl = some l →
      ∃ sr, (SyncManager.perform_sync cfg env (.ok items ndl) st0).saved = some sr
        ∧ sr.delta_link = l)
  ∧ (ndl = none → cfg.force_save_state = true →
      ∃ sr, (SyncManager.perform_sync cfg env (.ok items ndl) st0).saved = some sr
        ∧ sr.delta_link = dummy_delta_link env.time
        ∧ str_starts_with sr.delta_link "https://" = true)
  ∧ (ndl = none → cfg.force_save_state = false →
      (SyncManager.perform_sync cfg env (.ok items ndl) st0).saved = none)
  ∧ (SyncManager.perform_sync cfg env .failure st0).saved = none := by
  have hsaved : (SyncManager.perform_sync cfg env (.ok items ndl) st0).saved
      = (SyncManager.save_phase cfg env ndl
          (SyncManager.process_items cfg env items
            (SyncManager.set_initial_delta cfg env ndl
              (SyncManager.reset_pass st0)))).snd := rfl
  refine ⟨?_, fun l hl => ?_, fun hn hf => ?_, fun hn hf => ?_, rfl⟩
  · rw [hsaved]
    cases ndl with
    | some l => simp [SyncManager.save_phase]
    | none =>
      cases hf : cfg.force_save_state <;>
        simp [SyncManager.save_phase, hf]
  · subst hl
    rw [hsaved]
    have hdl : (SyncManager.process_items cfg env items
        (SyncManager.set_initial_delta cfg env (some l)
          (SyncManager.reset_pass st0))).delta_link = some l := by
      rw [sm_process_items_delta]
      rfl
    refine ⟨_, rfl, ?_⟩
    simp [SyncManager.save_phase, save_state_record, hdl]
  · subst hn
    rw [hsaved]
    have hs : str_starts_with (dummy_delta_link env.time) "https://" = true :=
      str_starts_with_append (toString env.time) (by decide)
    refine ⟨{ delta_link := dummy_delta_link env.time, last_sync := env.time,
              version := "1.0",
              sync_type := if cfg.root_only then "root_only" else "full" },
            ?_, rfl, hs⟩
    simp [SyncManager.save_phase, hf, save_state_record]
  · subst hn
    rw [hsaved]
    simp [SyncManager.save_phase, hf]

/-- Witness for c4_state_persistence: with no fresh delta link and no
force-save-state, nothing is persisted. -/
theorem c4_witness :
    (SyncManager.perform_sync
      { check_only := false, test_mode := false, max_files := none,
        target_folder := none, root_only := false, force_full_sync := false,
        force_save_state := false, file_types_to_exclude := [],
        paths_to_exclude := [] }
      { download_path := "dl", parse_time := fun _ => 0, now_mtime := 5,
        download_ok := fun _ => true, mkdir_ok := fun _ => true, time := 9,
        root_children := [], tz_aware := fun _ => true }
      (.ok [] none)
      { delta_link := none, file_state := fun _ => none, files_processed := 0,
        fs := fun _ => none, dirs := fun _ => false, downloads := [],
        would_log := [], errors := [], deletions := [] }).saved = none :=
  (c4_state_persistence _ _ _ _ _).2.2.2.1 rfl rfl

/-! ## C6: the local-wins-if-newer-or-equal heuristic -/

/-- C6: the claim (and the comment in the code above the comparison)
describes the intended heuristic — skip when an existing local copy is
at least as new, otherwise download unconditionally — but the code
orders the timezone-naive datetime.fromtimestamp value against the
timezone-aware datetime.fromisoformat value of the Z-suffixed Graph
timestamp, which raises TypeError; the exception is caught as a
per-item error. At the failing input below, the local copy at
dl/a.txt is older (modified time 1 against the parsed remote instant
7), so the claim requires a download; the code instead hits the
raising comparison, logs an error for a.txt, attempts no download,
and leaves the stale local file in place. -/
theorem c6_stale_local_never_updated :
    (SyncManager.handle_file
      { check_only := false, test_mode := false, max_files := none,
        target_folder := none, root_only := false, force_full_sync := false,
        force_save_state := false, file_types_to_exclude := [],
        paths_to_exclude := [] }
      { download_path := "dl", parse_time := fun _ => 7, now_mtime := 5,
        download_ok := fun _ => true, mkdir_ok := fun _ => true, time := 9,
        root_children := [], tz_aware := fun _ => true }
      { delta_link := none, file_state := fun _ => none, files_processed := 0,
        fs := fun p => if p = "dl/a.txt" then some { mtime := 1, size := 3 }
          else none,
        dirs := fun _ => false, downloads := [], would_log := [], errors := [],
        deletions := [] }
      { id := "1", name := "a.txt", parentRefPath := "/drive/root:",
        isFile := true, isFolder := false, deleted := false, size := 10,
        lastModifiedDateTime := some "2024-01-02T00:00:00Z" }).downloads = []
  ∧ (SyncManager.handle_file
      { check_only := false, test_mode := false, max_files := none,
        target_folder := none, root_only := false, force_full_sync := false,
        force_save_state := false, file_types_to_exclude := [],
        paths_to_exclude := [] }
      { download_path := "dl", parse_time := fun _ => 7, now_mtime := 5,
        download_ok := fun _ => true, mkdir_ok := fun _ => true, time := 9,
        root_children := [], tz_aware := fun _ => true }
      { delta_link := none, file_state := fun _ => none, files_processed := 0,
        fs := fun p => if p = "dl/a.txt" then some { mtime := 1, size := 3 }
          else none,
        dirs := fun _ => false, downloads := [], would_log := [], errors := [],
        deletions := [] }
      { id := "1", name := "a.txt", parentRefPath := "/drive/root:",
        isFile := true, isFolder := false, deleted := false, size := 10,
        lastModifiedDateTime := some "2024-01-02T00:00:00Z" }).errors
      = ["a.txt"]
  ∧ (SyncManager.handle_file
      { check_only := false, test_mode := false, max_files := none,
        target_folder := none, root_only := false, force_full_sync := false,
        force_save_state := false, file_types_to_exclude := [],
        paths_to_exclude := [] }
      { download_path := "dl", parse_time := fun _ => 7, now_mtime := 5,
        download_ok := fun _ => true, mkdir_ok := fun _ => true, time := 9,
        root_children := [], tz_aware := fun _ => true }
      { delta_link := none, file_state := fun _ => none, files_processed := 0,
        fs := fun p => if p = "dl/a.txt" then some { mtime := 1, size := 3 }
          else none,
        dirs := fun _ => false, downloads := [], would_log := [], errors := [],
        deletions := [] }
      { id := "1", name := "a.txt", parentRefPath := "/drive/root:",
        isFile := true, isFolder := false, deleted := false, size := 10,
        lastModifiedDateTime := some "2024-01-02T00:00:00Z" }).fs "dl/a.txt"
      = some { mtime := 1, size := 3 }
  ∧ SyncManager.mtime_check
      { download_path := "dl", parse_time := fun _ => 7, now_mtime := 5,
        download_ok := fun _ => true, mkdir_ok := fun _ => true, time := 9,
        root_children := [], tz_aware := fun _ => true }
      { delta_link := none, file_state := fun _ => none, files_processed := 0,
        fs := fun p => if p = "dl/a.txt" then some { mtime := 1, size := 3 }
          else none,
        dirs := fun _ => false, downloads := [], would_log := [], errors := [],
        deletions := [] }
      { id := "1", name := "a.txt", parentRefPath := "/drive/root:",
        isFile := true, isFolder := false, deleted := false, size := 10,
        lastModifiedDateTime := some "2024-01-02T00:00:00Z" }
      = SyncManager.MtimeOutcome.raises := by
  decide

/-! ## C7: test-mode cap enforcement -/

theorem sm_handle_file_len (cfg : SyncOptions) (env : Env) (st : SState)
    (it : RemoteItem) :
    (SyncManager.handle_file cfg env st it).downloads.length
      ≤ st.downloads.length + 1
  ∧ (SyncManager.handle_file cfg env st it).files_processed
      = st.files_processed := by
  unfold SyncManager.handle_file
  (repeat' split) <;> simp

theorem sm_handle_folder_len (env : Env) (st : SState) (it : RemoteItem) :
    (SyncManager.handle_folder env st it).downloads = st.downloads
  ∧ (SyncManager.handle_folder env st it).files_processed
      = st.files_processed := by
  unfold SyncManager.handle_folder
  (repeat' split) <;> simp

theorem sm_process_item_cap (cfg : SyncOptions) (env : Env) (n : Nat)
    (ht : cfg.test_mode = true) (hm : cfg.max_files = some n)
    (st : SState) (it : RemoteItem)
    (h1 : st.downloads.length ≤ st.files_processed)
    (h2 : st.files_processed ≤ n) :
    (SyncManager.process_item cfg env st it).downloads.length
      ≤ (SyncManager.process_item cfg env st it).files_processed
  ∧ (SyncManager.process_item cfg env st it).files_processed ≤ n := by
  have hfile := sm_handle_file_len cfg env st it
  have hfold := sm_handle_folder_len env st it
  unfold SyncManager.process_item
  (repeat' split) <;>
    first
      | exact ⟨h1, h2⟩
      | (constructor <;> simp_all <;> omega)
      | (simp_all [max_files_reached]; omega)

theorem sm_process_items_cap (cfg : SyncOptions) (env : Env) (n : Nat)
    (ht : cfg.test_mode = true) (hm : cfg.max_files = some n)
    (items : List RemoteItem) : ∀ st : SState,
    st.downloads.length ≤ st.files_processed → st.files_processed ≤ n →
    (SyncManager.process_items cfg env items st).downloads.length
      ≤ (SyncManager.process_items cfg env items st).files_processed
  ∧ (SyncManager.process_items cfg env items st).files_processed ≤ n := by
  induction items with
  | nil => intro st h1 h2; exact ⟨h1, h2⟩
  | cons hd tl ih =>
    intro st h1 h2
    have hstep := sm_process_item_cap cfg env n ht hm st hd h1 h2
    exact ih (SyncManager.process_item cfg env st hd) hstep.1 hstep.2

theorem sm_root_loop_len (cfg : SyncOptions) (env : Env) (n : Nat)
    (ht : cfg.test_mode = true) (hm : cfg.max_files = some n) :
    ∀ (l : List RemoteItem) (cnt : Nat) (st : SState),
    (SyncManager.download_root_loop cfg env l cnt st).downloads.length
      ≤ st.downloads.length + (n - cnt) := by
  intro l
  induction l with
  | nil => intro cnt st; simp [SyncManager.download_root_loop]
  | cons f rest ih =>
    intro cnt st
    unfold SyncManager.download_root_loop
    split
    · omega
    · split
      · have := ih cnt { st with would_log := f.name :: st.would_log }
        simpa using this
      · split
        · have := ih (cnt + 1)
            { st with
              fs := map_insert st.fs (local_file_path env f)
                { mtime := env.now_mtime, size := f.size },
              downloads := local_file_path env f :: st.downloads,
              files_processed := st.files_processed + 1 }
          have hlt : cnt < n := by
            by_contra hge
            simp_all [max_files_reached]
          simp only [List.length_cons] at this ⊢
          omega
        · omega

theorem mm_handle_folder_len (env : Env) (st : SState) (it : RemoteItem) :
    (ManualSyncManager.handle_folder env st it).downloads = st.downloads
  ∧ (ManualSyncManager.handle_folder env st it).files_processed
      = st.files_processed := by
  unfold ManualSyncManager.handle_folder
  (repeat' split) <;> simp

theorem mm_handle_file_len (cfg : SyncOptions) (env : Env) (st : SState)
    (it : RemoteItem) :
    ((ManualSyncManager.handle_file cfg env st it).downloads.length
        = st.downloads.length
     ∧ (ManualSyncManager.handle_file cfg env st it).files_processed
        = st.files_processed)
  ∨ ((ManualSyncManager.handle_file cfg env st it).downloads.length
        = st.downloads.length + 1
     ∧ (ManualSyncManager.handle_file cfg env st it).files_processed
        = st.files_processed + 1) := by
  rcases mm_handle_file_cases cfg env st it with h | h | h | ⟨h, _⟩ <;>
    rw [h] <;> simp

theorem mm_process_item_cap (cfg : SyncOptions) (env : Env) (n : Nat)
    (ht : cfg.test_mode = true) (hm : cfg.max_files = some n)
    (st : SState) (it : RemoteItem)
    (h1 : 2 * st.downloads.length ≤ st.files_processed)
    (h2 : st.files_processed ≤ n + 1) :
    2 * (ManualSyncManager.process_item cfg env st it).downloads.length
      ≤ (ManualSyncManager.process_item cfg env st it).files_processed
  ∧ (ManualSyncManager.process_item cfg env st it).files_processed ≤ n + 1 := by
  have hfile := mm_handle_file_len cfg env st it
  have hfold := mm_handle_folder_len env st it
  unfold ManualSyncManager.process_item
  (repeat' split) <;>
    first
      | exact ⟨h1, h2⟩
      | (constructor <;> simp_all <;> omega)
      | (rcases hfile with ⟨hd1, hf1⟩ | ⟨hd1, hf1⟩ <;> constructor <;>
          simp_all [max_files_reached] <;> omega)

theorem mm_process_items_cap (cfg : SyncOptions) (env : Env) (n : Nat)
    (ht : cfg.test_mode = true) (hm : cfg.max_files = some n)
    (items : List RemoteItem) : ∀ st : SState,
    2 * st.downloads.length ≤ st.files_processed → st.files_processed ≤ n + 1 →
    2 * (ManualSyncManager.process_items cfg env items st).downloads.length
      ≤ (ManualSyncManager.process_items cfg env items st).files_processed
  ∧ (ManualSyncManager.process_items cfg env items st).files_processed
      ≤ n + 1 := by
  induction items with
  | nil => intro st f1 f2; exact ⟨f1, f2⟩
  | cons hd tl ih =>
    intro st f1 f2
    have hstep := mm_process_item_cap cfg env n ht hm st hd f1 f2
    rw [mm_process_items_cons]
    exact ih (ManualSyncManager.process_item cfg env st hd) hstep.1 hstep.2

/-- C7: in test mode with a cap of n, a completed pass downloads at
most n files in the cursor strategy, in the direct root-download
fallback, and in the manual strategy (whose counter moves twice per
downloaded file: once in handle_file, once in process_item); in both
strategies an item processed once the counter has reached the cap
triggers no further download and leaves the filesystem untouched, and
folder items never advance the counter. -/
theorem c7_cap_enforcement (cfg : SyncOptions) (env : Env) (n : Nat)
    (ht : cfg.test_mode = true) (hm : cfg.max_files = some n) :
    (∀ (items : List RemoteItem) (ndl : Option String) (st0 : SState),
      (SyncManager.perform_sync cfg env (.ok items ndl) st0).state.downloads.length
        ≤ n)
  ∧ (∀ (st : SState) (it : RemoteItem), n ≤ st.files_processed →
      (SyncManager.process_item cfg env st it).downloads = st.downloads
      ∧ (SyncManager.process_item cfg env st it).fs = st.fs)
  ∧ (∀ (st : SState) (it : RemoteItem), it.isFolder = true →
      (SyncManager.process_item cfg env st it).files_processed
        = st.files_processed)
  ∧ (∀ st : SState,
      (SyncManager.download_root_files_directly cfg env st).downloads.length
        ≤ st.downloads.length + n)
  ∧ (∀ (raw : List RemoteItem) (st0 : SState),
      (ManualSyncManager.perform_sync cfg env (.ok raw) st0).state.downloads.length
        ≤ n)
  ∧ (∀ (st : SState) (it : RemoteItem), n ≤ st.files_processed →
      (ManualSyncManager.process_item cfg env st it).downloads = st.downloads
      ∧ (ManualSyncManager.process_item cfg env st it).fs = st.fs)
  ∧ (∀ (st : SState) (it : RemoteItem), it.isFolder = true →
      (ManualSyncManager.process_item cfg env st it).files_processed
        = st.files_processed) := by
  refine ⟨fun items ndl st0 => ?_, fun st it hn => ?_, fun st it hfol => ?_,
    fun st => ?_, fun raw st0 => ?_, fun st it hn => ?_, fun st it hfol => ?_⟩
  · have hstate : (SyncManager.perform_sync cfg env (.ok items ndl) st0).state
        = SyncManager.summary cfg env
            (SyncManager.save_phase cfg env ndl
              (SyncManager.process_items cfg env items
                (SyncManager.set_initial_delta cfg env ndl
                  (SyncManager.reset_pass st0)))).fst := rfl
    rw [hstate, sm_summary_id cfg env _ (Or.inr (Or.inl ht))]
    have hframe := sm_save_phase_frame cfg env ndl
      (SyncManager.process_items cfg env items
        (SyncManager.set_initial_delta cfg env ndl (SyncManager.reset_pass st0)))
    rw [hframe.1]
    have hinit := sm_set_initial_frame cfg env ndl (SyncManager.reset_pass st0)
    have hcap := sm_process_items_cap cfg env n ht hm items
      (SyncManager.set_initial_delta cfg env ndl (SyncManager.reset_pass st0))
      (by rw [hinit.1, hinit.2.2.2]; exact Nat.le_refl 0)
      (by rw [hinit.2.2.2]; exact Nat.zero_le n)
    omega
  · have hreach : max_files_reached cfg st.files_processed = true := by
      simp [max_files_reached, hm]
      omega
    unfold SyncManager.process_item
    (repeat' split) <;> simp_all
  · have hfold := sm_handle_folder_len env st it
    unfold SyncManager.process_item
    (repeat' split) <;> simp_all
  · unfold SyncManager.download_root_files_directly
    split
    · omega
    · have := sm_root_loop_len cfg env n ht hm
        (env.root_children.filter (fun x => x.isFile)) 0 st
      omega
  · have hstate : (ManualSyncManager.perform_sync cfg env (.ok raw) st0).state
        = ManualSyncManager.process_items cfg env
            (ManualSyncManager.listed_items cfg raw)
            (SyncManager.reset_pass st0) := rfl
    rw [hstate]
    obtain ⟨hc1, hc2⟩ := mm_process_items_cap cfg env n ht hm
      (ManualSyncManager.listed_items cfg raw) (SyncManager.reset_pass st0)
      Nat.le.refl (Nat.zero_le (n + 1))
    omega
  · have hreach : max_files_reached cfg st.files_processed = true := by
      simp [max_files_reached, hm]
      omega
    unfold ManualSyncManager.process_item
    (repeat' split) <;> simp_all
  · have hfold := mm_handle_folder_len env st it
    unfold ManualSyncManager.process_item
    (repeat' split) <;> simp_all

/-- Witness for c7_cap_enforcement with a cap of one file. -/
theorem c7_witness :
    (SyncManager.perform_sync
      { check_only := false, test_mode := true, max_files := some 1,
        target_folder := none, root_only := false, force_full_sync := false,
        force_save_state := false, file_types_to_exclude := [],
        paths_to_exclude := [] }
      { download_path := "dl", parse_time := fun _ => 0, now_mtime := 5,
        download_ok := fun _ => true, mkdir_ok := fun _ => true, time := 9,
        root_children := [], tz_aware := fun _ => true }
      (.ok [] none)
      { delta_link := none, file_state := fun _ => none, files_processed := 0,
        fs := fun _ => none, dirs := fun _ => false, downloads := [],
        would_log := [], errors := [], deletions := [] }).state.downloads.length
      ≤ 1 :=
  (c7_cap_enforcement
      { check_only := false, test_mode := true, max_files := some 1,
        target_folder := none, root_only := false, force_full_sync := false,
        force_save_state := false, file_types_to_exclude := [],
        paths_to_exclude := [] }
      { download_path := "dl", parse_time := fun _ => 0, now_mtime := 5,
        download_ok := fun _ => true, mkdir_ok := fun _ => true, time := 9,
        root_children := [], tz_aware := fun _ => true } 1 rfl rfl).1 [] none
    { delta_link := none, file_state := fun _ => none, files_processed := 0,
      fs := fun _ => none, dirs := fun _ => false, downloads := [],
      would_log := [], errors := [], deletions := [] }

/-! ## C1: check-only mode -/

theorem sm_handle_folder_frame (env : Env) (st : SState) (it : RemoteItem) :
    (SyncManager.handle_folder env st it).downloads = st.downloads
  ∧ (SyncManager.handle_folder env st it).fs = st.fs
  ∧ (SyncManager.handle_folder env st it).file_state = st.file_state := by
  unfold SyncManager.handle_folder
  (repeat' split) <;> simp

theorem sm_handle_file_checkonly (cfg : SyncOptions) (env : Env) (st : SState)
    (it : RemoteItem) (hc : cfg.check_only = true) :
    SyncManager.handle_file cfg env st it = st
  ∨ SyncManager.handle_file cfg env st it
      = { st with would_log := it.name :: st.would_log }
  ∨ SyncManager.handle_file cfg env st it
      = { st with errors := it.name :: st.errors } := by
  unfold SyncManager.handle_file
  (repeat' split) <;> simp_all

theorem sm_process_item_checkonly (cfg : SyncOptions) (env : Env) (st : SState)
    (it : RemoteItem) (hc : cfg.check_only = true) :
    (SyncManager.process_item cfg env st it).downloads = st.downloads
  ∧ (SyncManager.process_item cfg env st it).fs = st.fs
  ∧ (SyncManager.process_item cfg env st it).file_state = st.file_state := by
  have hfold := sm_handle_folder_frame env st it
  have hfile := sm_handle_file_checkonly cfg env st it hc
  unfold SyncManager.process_item
  (repeat' split) <;>
    first
      | exact ⟨rfl, rfl, rfl⟩
      | exact hfold
      | (rcases hfile with h | h | h <;> rw [h] <;> exact ⟨rfl, rfl, rfl⟩)

theorem sm_process_items_checkonly (cfg : SyncOptions) (env : Env)
    (items : List RemoteItem) (hc : cfg.check_only = true) : ∀ st : SState,
    (SyncManager.process_items cfg env items st).downloads = st.downloads
  ∧ (SyncManager.process_items cfg env items st).fs = st.fs
  ∧ (SyncManager.process_items cfg env items st).file_state = st.file_state := by
  induction items with
  | nil => intro st; exact ⟨rfl, rfl, rfl⟩
  | cons hd tl ih =>
    intro st
    have hstep := sm_process_item_checkonly cfg env st hd hc
    have hrest := ih (SyncManager.process_item cfg env st hd)
    rw [sm_process_items_cons]
    refine ⟨?_, ?_, ?_⟩
    · rw [hrest.1, hstep.1]
    · rw [hrest.2.1, hstep.2.1]
    · rw [hrest.2.2, hstep.2.2]

theorem mm_handle_folder_frame (env : Env) (st : SState) (it : RemoteItem) :
    (ManualSyncManager.handle_folder env st it).downloads = st.downloads
  ∧ (ManualSyncManager.handle_folder env st it).fs = st.fs
  ∧ (ManualSyncManager.handle_folder env st it).file_state = st.file_state := by
  unfold ManualSyncManager.handle_folder
  (repeat' split) <;> simp

theorem mm_handle_file_checkonly (cfg : SyncOptions) (env : Env) (st : SState)
    (it : RemoteItem) (hc : cfg.check_only = true) :
    ManualSyncManager.handle_file cfg env st it = st
  ∨ ManualSyncManager.handle_file cfg env st it
      = { st with would_log := it.name :: st.would_log } := by
  simp only [ManualSyncManager.handle_file]
  (repeat' split) <;> simp_all

theorem mm_process_item_checkonly (cfg : SyncOptions) (env : Env) (st : SState)
    (it : RemoteItem) (hc : cfg.check_only = true) :
    (ManualSyncManager.process_item cfg env st it).downloads = st.downloads
  ∧ (ManualSyncManager.process_item cfg env st it).fs = st.fs
  ∧ (ManualSyncManager.process_item cfg env st it).file_state = st.file_state := by
  have hfold := mm_handle_folder_frame env st it
  have hfile := mm_handle_file_checkonly cfg env st it hc
  unfold ManualSyncManager.process_item
  (repeat' split) <;>
    first
      | exact ⟨rfl, rfl, rfl⟩
      | exact hfold
      | (rcases hfile with h | h <;> rw [h] <;> exact ⟨rfl, rfl, rfl⟩)

theorem mm_process_items_checkonly (cfg : SyncOptions) (env : Env)
    (items : List RemoteItem) (hc : cfg.check_only = true) : ∀ st : SState,
    (ManualSyncManager.process_items cfg env items st).downloads = st.downloads
  ∧ (ManualSyncManager.process_items cfg env items st).fs = st.fs
  ∧ (ManualSyncManager.process_items cfg env items st).file_state
      = st.file_state := by
  induction items with
  | nil => intro st; exact ⟨rfl, rfl, rfl⟩
  | cons hd tl ih =>
    intro st
    have hstep := mm_process_item_checkonly cfg env st hd hc
    have hrest := ih (ManualSyncManager.process_item cfg env st hd)
    rw [mm_process_items_cons]
    refine ⟨?_, ?_, ?_⟩
    · rw [hrest.1, hstep.1]
    · rw [hrest.2.1, hstep.2.1]
    · rw [hrest.2.2, hstep.2.2]

/-- C1, counterexample: cursor strategy, check-only mode, one new
remote file a.txt, previously no cursor. The pass succeeds and
downloads nothing, but the fresh delta link from the response IS
persisted, and load accepts it; a subsequent real (non-check-only) run
that consumes the feed of that advanced cursor (empty, since nothing
changed remotely after the link was issued) downloads nothing and the
file never appears on disk — the cursor was advanced in a way that
causes the file to be skipped on the real run. -/
theorem c1_counterexample :
    (SyncManager.perform_sync
      { check_only := true, test_mode := false, max_files := none,
        target_folder := none, root_only := false, force_full_sync := false,
        force_save_state := false, file_types_to_exclude := [],
        paths_to_exclude := [] }
      { download_path := "dl", parse_time := fun _ => 0, now_mtime := 5,
        download_ok := fun _ => true, mkdir_ok := fun _ => true, time := 9,
        root_children := [], tz_aware := fun _ => true }
      (.ok [{ id := "1", name := "a.txt", parentRefPath := "/drive/root:",
              isFile := true, isFolder := false, deleted := false, size := 10,
              lastModifiedDateTime := some "2024-01-01T00:00:00Z" }]
        (some "https://delta/2"))
      { delta_link := none, file_state := fun _ => none, files_processed := 0,
        fs := fun _ => none, dirs := fun _ => false, downloads := [],
        would_log := [], errors := [], deletions := [] }).success = true
  ∧ (SyncManager.perform_sync
      { check_only := true, test_mode := false, max_files := none,
        target_folder := none, root_only := false, force_full_sync := false,
        force_save_state := false, file_types_to_exclude := [],
        paths_to_exclude := [] }
      { download_path := "dl", parse_time := fun _ => 0, now_mtime := 5,
        download_ok := fun _ => true, mkdir_ok := fun _ => true, time := 9,
        root_children := [], tz_aware := fun _ => true }
      (.ok [{ id := "1", name := "a.txt", parentRefPath := "/drive/root:",
              isFile := true, isFolder := false, deleted := false, size := 10,
              lastModifiedDateTime := some "2024-01-01T00:00:00Z" }]
        (some "https://delta/2"))
      { delta_link := none, file_state := fun _ => none, files_processed := 0,
        fs := fun _ => none, dirs := fun _ => false, downloads := [],
        would_log := [], errors := [], deletions := [] }).state.downloads = []
  ∧ (SyncManager.perform_sync
      { check_only := true, test_mode := false, max_files := none,
        target_folder := none, root_only := false, force_full_sync := false,
        force_save_state := false, file_types_to_exclude := [],
        paths_to_exclude := [] }
      { download_path := "dl", parse_time := fun _ => 0, now_mtime := 5,
        download_ok := fun _ => true, mkdir_ok := fun _ => true, time := 9,
        root_children := [], tz_aware := fun _ => true }
      (.ok [{ id := "1", name := "a.txt", parentRefPath := "/drive/root:",
              isFile := true, isFolder := false, deleted := false, size := 10,
              lastModifiedDateTime := some "2024-01-01T00:00:00Z" }]
        (some "https://delta/2"))
      { delta_link := none, file_state := fun _ => none, files_processed := 0,
        fs := fun _ => none, dirs := fun _ => false, downloads := [],
        would_log := [], errors := [], deletions := [] }).state.fs "dl/a.txt"
      = none
  ∧ (SyncManager.perform_sync
      { check_only := true, test_mode := false, max_files := none,
        target_folder := none, root_only := false, force_full_sync := false,
        force_save_state := false, file_types_to_exclude := [],
        paths_to_exclude := [] }
      { download_path := "dl", parse_time := fun _ => 0, now_mtime := 5,
        download_ok := fun _ => true, mkdir_ok := fun _ => true, time := 9,
        root_children := [], tz_aware := fun _ => true }
      (.ok [{ id := "1", name := "a.txt", parentRefPath := "/drive/root:",
              isFile := true, isFolder := false, deleted := false, size := 10,
              lastModifiedDateTime := some "2024-01-01T00:00:00Z" }]
        (some "https://delta/2"))
      { delta_link := none, file_state := fun _ => none, files_processed := 0,
        fs := fun _ => none, dirs := fun _ => false, downloads := [],
        would_log := [], errors := [], deletions := [] }).saved
      = some { delta_link := "https://delta/2", last_sync := 9,
               version := "1.0", sync_type := "full" }
  ∧ validate_delta_link (some "https://delta/2") = some "https://delta/2"
  ∧ (SyncManager.perform_sync
      { check_only := false, test_mode := false, max_files := none,
        target_folder := none, root_only := false, force_full_sync := false,
        force_save_state := false, file_types_to_exclude := [],
        paths_to_exclude := [] }
      { download_path := "dl", parse_time := fun _ => 0, now_mtime := 5,
        download_ok := fun _ => true, mkdir_ok := fun _ => true, time := 9,
        root_children := [], tz_aware := fun _ => true }
      (.ok [] (some "https://delta/2"))
      { delta_link := some "https://delta/2", file_state := fun _ => none,
        files_processed := 0, fs := fun _ => none, dirs := fun _ => false,
        downloads := [], would_log := [], errors := [],
        deletions := [] }).state.downloads = []
  ∧ (SyncManager.perform_sync
      { check_only := false, test_mode := false, max_files := none,
        target_folder := none, root_only := false, force_full_sync := false,
        force_save_state := false, file_types_to_exclude := [],
        paths_to_exclude := [] }
      { download_path := "dl", parse_time := fun _ => 0, now_mtime := 5,
        download_ok := fun _ => true, mkdir_ok := fun _ => true, time := 9,
        root_children := [], tz_aware := fun _ => true }
      (.ok [] (some "https://delta/2"))
      { delta_link := some "https://delta/2", file_state := fun _ => none,
        files_processed := 0, fs := fun _ => none, dirs := fun _ => false,
        downloads := [], would_log := [], errors := [],
        deletions := [] }).state.fs "dl/a.txt" = none := by
  decide

/-- C1 (amended): in check-only mode a pass completes successfully
without downloading anything and without touching the filesystem; in
the manual strategy knownItems is left unchanged, so a subsequent real
run still sees the file as new; in the cursor strategy, however, a
fresh delta link carried by the response is persisted by the pass, so
the cursor IS advanced past the change and a subsequent real run
consuming that cursor will not see the file again. -/
theorem c1_amended :
    (∀ (cfg : SyncOptions) (env : Env) (raw : List RemoteItem) (st0 : SState),
      cfg.check_only = true →
      (ManualSyncManager.perform_sync cfg env (.ok raw) st0).success = true
      ∧ (ManualSyncManager.perform_sync cfg env (.ok raw) st0).state.downloads = []
      ∧ (ManualSyncManager.perform_sync cfg env (.ok raw) st0).state.file_state
          = st0.file_state
      ∧ (ManualSyncManager.perform_sync cfg env (.ok raw) st0).state.fs = st0.fs)
  ∧ (∀ (cfg : SyncOptions) (env : Env) (items : List RemoteItem) (l : String)
       (st0 : SState),
      cfg.check_only = true →
      (SyncManager.perform_sync cfg env (.ok items (some l)) st0).success = true
      ∧ (SyncManager.perform_sync cfg env (.ok items (some l)) st0).state.downloads
          = []
      ∧ (SyncManager.perform_sync cfg env (.ok items (some l)) st0).state.fs
          = st0.fs
      ∧ ∃ sr, (SyncManager.perform_sync cfg env (.ok items (some l)) st0).saved
            = some sr ∧ sr.delta_link = l) := by
  constructor
  · intro cfg env raw st0 hc
    have hpass := mm_process_items_checkonly cfg env
      (ManualSyncManager.listed_items cfg raw) hc (SyncManager.reset_pass st0)
    exact ⟨rfl, hpass.1, hpass.2.2, hpass.2.1⟩
  · intro cfg env items l st0 hc
    have hstate : (SyncManager.perform_sync cfg env (.ok items (some l)) st0).state
        = SyncManager.summary cfg env
            (SyncManager.save_phase cfg env (some l)
              (SyncManager.process_items cfg env items
                (SyncManager.set_initial_delta cfg env (some l)
                  (SyncManager.reset_pass st0)))).fst := rfl
    have hsum := sm_summary_id cfg env
      (SyncManager.save_phase cfg env (some l)
        (SyncManager.process_items cfg env items
          (SyncManager.set_initial_delta cfg env (some l)
            (SyncManager.reset_pass st0)))).fst (Or.inl hc)
    have hsp := sm_save_phase_frame cfg env (some l)
      (SyncManager.process_items cfg env items
        (SyncManager.set_initial_delta cfg env (some l)
          (SyncManager.reset_pass st0)))
    have hpass := sm_process_items_checkonly cfg env items hc
      (SyncManager.set_initial_delta cfg env (some l) (SyncManager.reset_pass st0))
    have hdl : (SyncManager.process_items cfg env items
        (SyncManager.set_initial_delta cfg env (some l)
          (SyncManager.reset_pass st0))).delta_link = some l := by
      rw [sm_process_items_delta]
      rfl
    refine ⟨rfl, ?_, ?_, ?_⟩
    · rw [hstate, hsum, hsp.1, hpass.1]; rfl
    · rw [hstate, hsum, hsp.2.1, hpass.2.1]; rfl
    · refine ⟨_, rfl, ?_⟩
      show (save_state_record
        (SyncManager.process_items cfg env items
          (SyncManager.set_initial_delta cfg env (some l)
            (SyncManager.reset_pass st0))).delta_link cfg.root_only
        env.time).snd.delta_link = l
      rw [hdl]
      rfl

/-- Witness for c1_amended in check-only mode with one new file. -/
theorem c1_witness :
    (ManualSyncManager.perform_sync
      { check_only := true, test_mode := false, max_files := none,
        target_folder := none, root_only := false, force_full_sync := false,
        force_save_state := false, file_types_to_exclude := [],
        paths_to_exclude := [] }
      { download_path := "dl", parse_time := fun _ => 0, now_mtime := 5,
        download_ok := fun _ => true, mkdir_ok := fun _ => true, time := 9,
        root_children := [], tz_aware := fun _ => true }
      (.ok [{ id := "1", name := "a.txt", parentRefPath := "/drive/root:",
              isFile := true, isFolder := false, deleted := false, size := 10,
              lastModifiedDateTime := some "2024-01-01T00:00:00Z" }])
      { delta_link := none, file_state := fun _ => none, files_processed := 0,
        fs := fun _ => none, dirs := fun _ => false, downloads := [],
        would_log := [], errors := [], deletions := [] }).state.downloads
      = [] :=
  (c1_amended.1
    { check_only := true, test_mode := false, max_files := none,
      target_folder := none, root_only := false, force_full_sync := false,
      force_save_state := false, file_types_to_exclude := [],
      paths_to_exclude := [] }
    { download_path := "dl", parse_time := fun _ => 0, now_mtime := 5,
      download_ok := fun _ => true, mkdir_ok := fun _ => true, time := 9,
      root_children := [], tz_aware := fun _ => true }
    [{ id := "1", name := "a.txt", parentRefPath := "/drive/root:",
       isFile := true, isFolder := false, deleted := false, size := 10,
       lastModifiedDateTime := some "2024-01-01T00:00:00Z" }]
    { delta_link := none, file_state := fun _ => none, files_processed := 0,
      fs := fun _ => none, dirs := fun _ => false, downloads := [],
      would_log := [], errors := [], deletions := [] } rfl).2.1

/-! ## C10: the manual files map only grows -/

theorem mm_process_item_cases (cfg : SyncOptions) (env : Env) (st : SState)
    (it : RemoteItem) :
    ManualSyncManager.process_item cfg env st it = st
  ∨ ManualSyncManager.process_item cfg env st it
      = ManualSyncManager.handle_folder env st it
  ∨ ManualSyncManager.process_item cfg env st it
      = ManualSyncManager.handle_file cfg env st it
  ∨ ManualSyncManager.process_item cfg env st it
      = { ManualSyncManager.handle_file cfg env st it with
          files_processed :=
            (ManualSyncManager.handle_file cfg env st it).files_processed + 1 } := by
  unfold ManualSyncManager.process_item
  (repeat' split) <;> simp

theorem mm_process_item_file_state (cfg : SyncOptions) (env : Env) (st : SState)
    (it : RemoteItem) (k : String) :
    (ManualSyncManager.process_item cfg env st it).file_state k = st.file_state k
  ∨ ((ManualSyncManager.process_item cfg env st it).file_state k
      = some (new_entry it)
     ∧ env.download_ok it = true
     ∧ (ManualSyncManager.process_item cfg env st it).downloads
        = local_file_path env it :: st.downloads) := by
  have hdisp := mm_process_item_cases cfg env st it
  have hfold := mm_handle_folder_frame env st it
  have hfile := mm_handle_file_cases cfg env st it
  rcases hdisp with h | h | h | h
  · rw [h]; exact Or.inl rfl
  · rw [h, hfold.2.2]; exact Or.inl rfl
  · rcases hfile with h2 | h2 | h2 | ⟨h2, hok⟩
    · rw [h, h2]; exact Or.inl rfl
    · rw [h, h2]; exact Or.inl rfl
    · rw [h, h2]; exact Or.inl rfl
    · rw [h, h2]
      by_cases hk : k = path_key it
      · subst hk
        exact Or.inr
          ⟨map_insert_self st.file_state (path_key it) (new_entry it), hok, rfl⟩
      · exact Or.inl (map_insert_other st.file_state (path_key it) (new_entry it) k hk)
  · rcases hfile with h2 | h2 | h2 | ⟨h2, hok⟩
    · rw [h, h2]; exact Or.inl rfl
    · rw [h, h2]; exact Or.inl rfl
    · rw [h, h2]; exact Or.inl rfl
    · rw [h, h2]
      by_cases hk : k = path_key it
      · subst hk
        exact Or.inr
          ⟨map_insert_self st.file_state (path_key it) (new_entry it), hok, rfl⟩
      · exact Or.inl (map_insert_other st.file_state (path_key it) (new_entry it) k hk)

theorem mm_process_items_fstate_mono (cfg : SyncOptions) (env : Env)
    (items : List RemoteItem) : ∀ (st : SState) (k : String),
    (st.file_state k).isSome →
    ((ManualSyncManager.process_items cfg env items st).file_state k).isSome := by
  induction items with
  | nil => intro st k h; exact h
  | cons hd tl ih =>
    intro st k h
    rw [mm_process_items_cons]
    refine ih _ k ?_
    rcases mm_process_item_file_state cfg env st hd k with h2 | ⟨h2, _, _⟩
    · rw [h2]; exact h
    · rw [h2]; rfl

/-- C10: within one manual pass the files map (knownItems) is only ever
added to or updated in place: an existing key is never removed by any
item, and the map changes at a key only by storing the freshly
downloaded entry of an item, which happens together with a successful
download of that file; items absent from the listing (deleted remotely)
simply keep their entries. -/
theorem c10_known_items_monotone (cfg : SyncOptions) (env : Env)
    (raw : List RemoteItem) (st0 : SState) (k : String) :
    ((st0.file_state k).isSome →
      ((ManualSyncManager.perform_sync cfg env (.ok raw) st0).state.file_state
          k).isSome)
  ∧ (∀ (st : SState) (it : RemoteItem),
      (ManualSyncManager.process_item cfg env st it).file_state k
        = st.file_state k
      ∨ ((ManualSyncManager.process_item cfg env st it).file_state k
          = some (new_entry it)
         ∧ env.download_ok it = true
         ∧ (ManualSyncManager.process_item cfg env st it).downloads
            = local_file_path env it :: st.downloads)) := by
  constructor
  · intro h
    exact mm_process_items_fstate_mono cfg env
      (ManualSyncManager.listed_items cfg raw) (SyncManager.reset_pass st0) k h
  · intro st it
    exact mm_process_item_file_state cfg env st it k

/-- Witness for c10_known_items_monotone: a pre-existing entry
survives a pass over one item. -/
theorem c10_witness :
    (((ManualSyncManager.perform_sync
      { check_only := false, test_mode := false, max_files := none,
        target_folder := none, root_only := false, force_full_sync := false,
        force_save_state := false, file_types_to_exclude := [],
        paths_to_exclude := [] }
      { download_path := "dl", parse_time := fun _ => 0, now_mtime := 5,
        download_ok := fun _ => true, mkdir_ok := fun _ => true, time := 9,
        root_children := [], tz_aware := fun _ => true }
      (.ok [{ id := "1", name := "a.txt", parentRefPath := "/drive/root:",
              isFile := true, isFolder := false, deleted := false, size := 10,
              lastModifiedDateTime := some "2024-01-01T00:00:00Z" }])
      { delta_link := none,
        file_state := fun q => if q = "old.txt"
          then some { id := "0", name := "old.txt",
                      lastModifiedDateTime := none, size := 1,
                      path := "old.txt" }
          else none,
        files_processed := 0, fs := fun _ => none, dirs := fun _ => false,
        downloads := [], would_log := [], errors := [],
        deletions := [] }).state.file_state "old.txt").isSome) :=
  (c10_known_items_monotone
    { check_only := false, test_mode := false, max_files := none,
      target_folder := none, root_only := false, force_full_sync := false,
      force_save_state := false, file_types_to_exclude := [],
      paths_to_exclude := [] }
    { download_path := "dl", parse_time := fun _ => 0, now_mtime := 5,
      download_ok := fun _ => true, mkdir_ok := fun _ => true, time := 9,
      root_children := [], tz_aware := fun _ => true }
    [{ id := "1", name := "a.txt", parentRefPath := "/drive/root:",
       isFile := true, isFolder := false, deleted := false, size := 10,
       lastModifiedDateTime := some "2024-01-01T00:00:00Z" }]
    { delta_link := none,
      file_state := fun q => if q = "old.txt"
        then some { id := "0", name := "old.txt",
                    lastModifiedDateTime := none, size := 1,
                    path := "old.txt" }
        else none,
      files_processed := 0, fs := fun _ => none, dirs := fun _ => false,
      downloads := [], would_log := [], errors := [], deletions := [] }
    "old.txt").1 (by decide)

/-! ## C8: idempotence of a manual pass -/

theorem str_append_cancel_left {a b c : String} (h : a ++ b = a ++ c) : b = c := by
  have hd : a.data ++ b.data = a.data ++ c.data := by
    have h2 := congrArg String.data h
    simpa [str_data_append] using h2
  exact String.ext_iff.mpr (List.append_cancel_left hd)

theorem str_ne_empty_data {b : String} (hb : ¬ b = "") : b.data ≠ [] := by
  intro hcon
  exact hb (String.ext_iff.mpr (by rw [hcon]))

theorem joinPath_empty_left (b : String) : joinPath "" b = b := by
  unfold joinPath
  simp

theorem joinPath_of_ne (a b : String) (ha : ¬ a = "")
    (ha2 : ¬ a.data.getLast? = some '/') : joinPath a b = a ++ "/" ++ b := by
  unfold joinPath
  rw [if_neg ha, if_neg ha2]

theorem joinPath_of_slash (a b : String) (ha : ¬ a = "")
    (ha2 : a.data.getLast? = some '/') : joinPath a b = a ++ b := by
  unfold joinPath
  rw [if_neg ha, if_pos ha2]

theorem str_slash_ne_empty (a b : String) : ¬ (a ++ "/" ++ b) = "" := by
  intro hcon
  have h2 := congrArg String.data hcon
  simp [str_data_append] at h2

theorem join3_decomp (a b c : String) (ha : ¬ a = "")
    (ha2 : ¬ a.data.getLast? = some '/') :
    join3 a b c = a ++ "/" ++ joinPath b c := by
  show joinPath (joinPath a b) c = _
  rw [joinPath_of_ne a b ha ha2]
  by_cases hb : b = ""
  · subst hb
    have he : a ++ "/" ++ ("" : String) = a ++ "/" := by
      cases a
      simp [String.ext_iff, str_data_append]
    rw [he, joinPath_empty_left]
    have hne : ¬ (a ++ "/") = "" := by
      intro hcon
      have h2 := congrArg String.data hcon
      simp [str_data_append] at h2
    have hlast : (a ++ "/").data.getLast? = some '/' := by
      simp [str_data_append, List.getLast?_append]
    rw [joinPath_of_slash (a ++ "/") c hne hlast]
  · by_cases hbl : b.data.getLast? = some '/'
    · rw [joinPath_of_slash b c hb hbl]
      have hlast : (a ++ "/" ++ b).data.getLast? = some '/' := by
        have hd : (a ++ "/" ++ b).data = (a ++ "/").data ++ b.data := rfl
        rw [hd, List.getLast?_append, hbl]
        rfl
      rw [joinPath_of_slash _ c (str_slash_ne_empty a b) hlast]
      simp [String.ext_iff, str_data_append]
    · obtain ⟨x, hx⟩ : ∃ x, b.data.getLast? = some x := by
        cases hgl : b.data.getLast? with
        | none =>
          exact absurd (List.getLast?_eq_none_iff.mp hgl) (str_ne_empty_data hb)
        | some x => exact ⟨x, rfl⟩
      rw [joinPath_of_ne b c hb hbl]
      have hlast : ¬ (a ++ "/" ++ b).data.getLast? = some '/' := by
        have hd : (a ++ "/" ++ b).data = (a ++ "/").data ++ b.data := rfl
        rw [hd, List.getLast?_append, hx]
        intro hcon
        simp at hcon
        exact hbl (by rw [hx, hcon])
      rw [joinPath_of_ne _ c (str_slash_ne_empty a b) hlast]
      simp [String.ext_iff, str_data_append]

theorem local_path_congr (env : Env) (it it2 : RemoteItem)
    (h1 : ¬ env.download_path = "")
    (h2 : ¬ env.download_path.data.getLast? = some '/')
    (h : local_file_path env it = local_file_path env it2) :
    path_key it = path_key it2 := by
  unfold local_file_path at h
  rw [join3_decomp _ _ _ h1 h2, join3_decomp _ _ _ h1 h2] at h
  have h3 := str_append_cancel_left h
  unfold path_key
  rw [h3]

theorem mm_need_congr (env : Env) (f1 f2 : String → Option FileEntry)
    (fs1 fs2 : FS) (it : RemoteItem)
    (h1 : f1 (path_key it) = f2 (path_key it))
    (h2 : fs1 (local_file_path env it) = fs2 (local_file_path env it)) :
    ManualSyncManager.need_download env f1 fs1 it
      = ManualSyncManager.need_download env f2 fs2 it := by
  unfold ManualSyncManager.need_download
  rw [h1, h2]

theorem mm_process_item_frame (cfg : SyncOptions) (env : Env) (st : SState)
    (it : RemoteItem) (k p : String) (hk : ¬ k = path_key it)
    (hp : ¬ p = local_file_path env it) :
    (ManualSyncManager.process_item cfg env st it).file_state k
      = st.file_state k
  ∧ (ManualSyncManager.process_item cfg env st it).fs p = st.fs p := by
  have hfold := mm_handle_folder_frame env st it
  rcases mm_process_item_cases cfg env st it with h | h | h | h
  · rw [h]; exact ⟨rfl, rfl⟩
  · rw [h, hfold.2.2, hfold.2.1]; exact ⟨rfl, rfl⟩
  · rcases mm_handle_file_cases cfg env st it with h2 | h2 | h2 | ⟨h2, _⟩ <;>
      rw [h, h2]
    · exact ⟨rfl, rfl⟩
    · exact ⟨rfl, rfl⟩
    · exact ⟨rfl, rfl⟩
    · exact ⟨map_insert_other st.file_state (path_key it) (new_entry it) k hk,
        map_insert_other st.fs (local_file_path env it)
          { mtime := env.now_mtime, size := it.size } p hp⟩
  · rcases mm_handle_file_cases cfg env st it with h2 | h2 | h2 | ⟨h2, _⟩ <;>
      rw [h, h2]
    · exact ⟨rfl, rfl⟩
    · exact ⟨rfl, rfl⟩
    · exact ⟨rfl, rfl⟩
    · exact ⟨map_insert_other st.file_state (path_key it) (new_entry it) k hk,
        map_insert_other st.fs (local_file_path env it)
          { mtime := env.now_mtime, size := it.size } p hp⟩

/-- The state-independent test that a manual-strategy item reaches
handle_file outside test mode: it passes the exclusion filter and the
target-folder and root-only restrictions, and carries the file facet
(and not the folder facet). -/
def m_reaches_file (cfg : SyncOptions) (it : RemoteItem) : Bool :=
  ManualSyncManager.should_process_item cfg it && !(target_skip cfg it)
  && !(cfg.root_only && str_truthy (get_parent_path it))
  && !(cfg.root_only && it.isFolder)
  && !it.isFolder && it.isFile

theorem mm_process_item_reaches (cfg : SyncOptions) (env : Env) (st : SState)
    (it : RemoteItem) (ht : cfg.test_mode = false)
    (hr : m_reaches_file cfg it = true) :
    ManualSyncManager.process_item cfg env st it
      = ManualSyncManager.handle_file cfg env st it := by
  simp only [m_reaches_file, Bool.and_eq_true, Bool.not_eq_true'] at hr
  obtain ⟨⟨⟨⟨⟨hsp, hts⟩, hro1⟩, hro2⟩, hfol⟩, hfil⟩ := hr
  unfold ManualSyncManager.process_item
  simp [hsp, hts, hro1, hro2, hfol, hfil, ht]

theorem mm_handle_file_noneed (cfg : SyncOptions) (env : Env) (st : SState)
    (it : RemoteItem) (hc : cfg.check_only = false)
    (hneed : ManualSyncManager.need_download env st.file_state st.fs it = false) :
    ManualSyncManager.handle_file cfg env st it = st := by
  simp [ManualSyncManager.handle_file, hc, hneed]

theorem mm_handle_file_download (cfg : SyncOptions) (env : Env) (st : SState)
    (it : RemoteItem) (hc : cfg.check_only = false)
    (hneed : ManualSyncManager.need_download env st.file_state st.fs it = true)
    (hok : env.download_ok it = true) :
    ManualSyncManager.handle_file cfg env st it
      = { st with
          fs := map_insert st.fs (local_file_path env it)
            { mtime := env.now_mtime, size := it.size },
          dirs := set_true st.dirs
            (joinPath env.download_path (get_parent_path it)),
          file_state := map_insert st.file_state (path_key it) (new_entry it),
          downloads := local_file_path env it :: st.downloads,
          files_processed := st.files_processed + 1 } := by
  simp [ManualSyncManager.handle_file, hc, hneed, hok]

theorem mm_need_after (cfg : SyncOptions) (env : Env) (st : SState)
    (it : RemoteItem) (ht : cfg.test_mode = false)
    (hc : cfg.check_only = false) (hok : env.download_ok it = true)
    (hr : m_reaches_file cfg it = true) :
    ManualSyncManager.need_download env
      (ManualSyncManager.process_item cfg env st it).file_state
      (ManualSyncManager.process_item cfg env st it).fs it = false := by
  rw [mm_process_item_reaches cfg env st it ht hr]
  cases hneed : ManualSyncManager.need_download env st.file_state st.fs it with
  | false =>
    rw [mm_handle_file_noneed cfg env st it hc hneed]
    exact hneed
  | true =>
    rw [mm_handle_file_download cfg env st it hc hneed hok]
    unfold ManualSyncManager.need_download
    cases hmt : it.lastModifiedDateTime <;>
      simp [map_insert, new_entry, hmt]

theorem mm_need_preserved (cfg : SyncOptions) (env : Env) (it : RemoteItem)
    (hdp1 : ¬ env.download_path = "")
    (hdp2 : ¬ env.download_path.data.getLast? = some '/') :
    ∀ (rest : List RemoteItem) (st : SState),
    ManualSyncManager.need_download env st.file_state st.fs it = false →
    ¬ path_key it ∈ rest.map path_key →
    ManualSyncManager.need_download env
      (ManualSyncManager.process_items cfg env rest st).file_state
      (ManualSyncManager.process_items cfg env rest st).fs it = false := by
  intro rest
  induction rest with
  | nil => intro st h _; exact h
  | cons hd tl ih =>
    intro st h hmem
    rw [mm_process_items_cons]
    simp only [List.map_cons, List.mem_cons, not_or] at hmem
    obtain ⟨hne, hnotin⟩ := hmem
    have hp : ¬ local_file_path env it = local_file_path env hd := fun hcon =>
      hne (local_path_congr env it hd hdp1 hdp2 hcon)
    have hframe := mm_process_item_frame cfg env st hd (path_key it)
      (local_file_path env it) hne hp
    have hstep : ManualSyncManager.need_download env
        (ManualSyncManager.process_item cfg env st hd).file_state
        (ManualSyncManager.process_item cfg env st hd).fs it = false := by
      rw [mm_need_congr env _ st.file_state _ st.fs it hframe.1 hframe.2]
      exact h
    exact ih _ hstep hnotin

theorem mm_pass_need_false (cfg : SyncOptions) (env : Env)
    (ht : cfg.test_mode = false) (hc : cfg.check_only = false)
    (hok : ∀ it, env.download_ok it = true)
    (hdp1 : ¬ env.download_path = "")
    (hdp2 : ¬ env.download_path.data.getLast? = some '/') :
    ∀ (items : List RemoteItem) (st : SState), (items.map path_key).Nodup →
    ∀ it ∈ items, m_reaches_file cfg it = true →
    ManualSyncManager.need_download env
      (ManualSyncManager.process_items cfg env items st).file_state
      (ManualSyncManager.process_items cfg env items st).fs it = false := by
  intro items
  induction items with
  | nil => intro st _ it hmem; exact absurd hmem (List.not_mem_nil it)
  | cons hd tl ih =>
    intro st hnd it hmem hr
    simp only [List.map_cons, List.nodup_cons] at hnd
    obtain ⟨hhd, hndtl⟩ := hnd
    rw [mm_process_items_cons]
    rcases List.mem_cons.mp hmem with heq | hmemtl
    · subst heq
      have h1 := mm_need_after cfg env st it ht hc (hok it) hr
      exact mm_need_preserved cfg env it hdp1 hdp2 tl _ h1 hhd
    · exact ih _ hndtl it hmemtl hr

theorem mm_process_item_noreach (cfg : SyncOptions) (env : Env) (st : SState)
    (it : RemoteItem) (hr : m_reaches_file cfg it = false) :
    (ManualSyncManager.process_item cfg env st it).downloads = st.downloads
  ∧ (ManualSyncManager.process_item cfg env st it).file_state = st.file_state
  ∧ (ManualSyncManager.process_item cfg env st it).fs = st.fs := by
  have hfold := mm_handle_folder_frame env st it
  unfold ManualSyncManager.process_item
  (repeat' split) <;>
    first
      | exact ⟨rfl, rfl, rfl⟩
      | exact ⟨hfold.1, hfold.2.2, hfold.2.1⟩
      | (exfalso; simp_all [m_reaches_file])

theorem mm_process_item_noop (cfg : SyncOptions) (env : Env) (st : SState)
    (it : RemoteItem) (ht : cfg.test_mode = false) (hc : cfg.check_only = false)
    (h : m_reaches_file cfg it = false
       ∨ ManualSyncManager.need_download env st.file_state st.fs it = false) :
    (ManualSyncManager.process_item cfg env st it).downloads = st.downloads
  ∧ (ManualSyncManager.process_item cfg env st it).file_state = st.file_state
  ∧ (ManualSyncManager.process_item cfg env st it).fs = st.fs := by
  by_cases hr : m_reaches_file cfg it = true
  · have hneed : ManualSyncManager.need_download env st.file_state st.fs it
        = false := by
      rcases h with h | h
      · rw [hr] at h; cases h
      · exact h
    rw [mm_process_item_reaches cfg env st it ht hr,
      mm_handle_file_noneed cfg env st it hc hneed]
    exact ⟨rfl, rfl, rfl⟩
  · exact mm_process_item_noreach cfg env st it (Bool.not_eq_true _ ▸ hr)

theorem mm_process_items_noop (cfg : SyncOptions) (env : Env)
    (ht : cfg.test_mode = false) (hc : cfg.check_only = false) :
    ∀ (items : List RemoteItem) (st : SState),
    (∀ it ∈ items, m_reaches_file cfg it = false
       ∨ ManualSyncManager.need_download env st.file_state st.fs it = false) →
    (ManualSyncManager.process_items cfg env items st).downloads = st.downloads
  ∧ (ManualSyncManager.process_items cfg env items st).file_state = st.file_state
  ∧ (ManualSyncManager.process_items cfg env items st).fs = st.fs := by
  intro items
  induction items with
  | nil => intro st _; exact ⟨rfl, rfl, rfl⟩
  | cons hd tl ih =>
    intro st hcond
    have hhd := mm_process_item_noop cfg env st hd ht hc
      (hcond hd (List.mem_cons_self hd tl))
    have hcond2 : ∀ it ∈ tl, m_reaches_file cfg it = false
        ∨ ManualSyncManager.need_download env
            (ManualSyncManager.process_item cfg env st hd).file_state
            (ManualSyncManager.process_item cfg env st hd).fs it = false := by
      intro it hm
      rcases hcond it (List.mem_cons_of_mem hd hm) with h | h
      · exact Or.inl h
      · right
        rw [hhd.2.1, hhd.2.2]
        exact h
    have htl := ih (ManualSyncManager.process_item cfg env st hd) hcond2
    rw [mm_process_items_cons]
    exact ⟨by rw [htl.1, hhd.1], by rw [htl.2.1, hhd.2.1],
      by rw [htl.2.2, hhd.2.2]⟩

/-- C8: with no remote changes between two manual passes over the same
listing (all downloads succeeding, distinct item paths, default modes),
the second pass downloads nothing and leaves knownItems exactly as the
first pass left it; and a cursor pass over an empty change feed
downloads nothing. -/
theorem c8_idempotent (cfg : SyncOptions) (env : Env) (raw : List RemoteItem)
    (st0 : SState) (hc : cfg.check_only = false) (ht : cfg.test_mode = false)
    (hok : ∀ it, env.download_ok it = true)
    (hnd : (raw.map path_key).Nodup)
    (hdp1 : ¬ env.download_path = "")
    (hdp2 : ¬ env.download_path.data.getLast? = some '/') :
    ((ManualSyncManager.perform_sync cfg env (.ok raw)
        (ManualSyncManager.perform_sync cfg env (.ok raw) st0).state).state.downloads
      = []
     ∧ (ManualSyncManager.perform_sync cfg env (.ok raw)
        (ManualSyncManager.perform_sync cfg env (.ok raw) st0).state).state.file_state
      = (ManualSyncManager.perform_sync cfg env (.ok raw) st0).state.file_state)
  ∧ (∀ (cfg2 : SyncOptions) (env2 : Env) (ndl : Option String) (st : SState),
      cfg2.root_only = false →
      (SyncManager.perform_sync cfg2 env2 (.ok [] ndl) st).state.downloads = []) := by
  constructor
  · have hnd2 : ((ManualSyncManager.listed_items cfg raw).map path_key).Nodup := by
      have hsub : (ManualSyncManager.listed_items cfg raw).Sublist raw := by
        unfold ManualSyncManager.listed_items
        split
        · exact List.filter_sublist raw
        · exact List.Sublist.refl raw
      exact List.Nodup.sublist (List.Sublist.map path_key hsub) hnd
    have hneedall := mm_pass_need_false cfg env ht hc hok hdp1 hdp2
      (ManualSyncManager.listed_items cfg raw) (SyncManager.reset_pass st0) hnd2
    have hstate1 : (ManualSyncManager.perform_sync cfg env (.ok raw) st0).state
        = ManualSyncManager.process_items cfg env
            (ManualSyncManager.listed_items cfg raw)
            (SyncManager.reset_pass st0) := rfl
    have hcond : ∀ it ∈ ManualSyncManager.listed_items cfg raw,
        m_reaches_file cfg it = false
        ∨ ManualSyncManager.need_download env
            (SyncManager.reset_pass
              (ManualSyncManager.perform_sync cfg env (.ok raw) st0).state).file_state
            (SyncManager.reset_pass
              (ManualSyncManager.perform_sync cfg env (.ok raw) st0).state).fs
            it = false := by
      intro it hm
      by_cases hr : m_reaches_file cfg it = true
      · right
        rw [hstate1]
        exact hneedall it hm hr
      · exact Or.inl (Bool.not_eq_true _ ▸ hr)
    have hnoop := mm_process_items_noop cfg env ht hc
      (ManualSyncManager.listed_items cfg raw)
      (SyncManager.reset_pass
        (ManualSyncManager.perform_sync cfg env (.ok raw) st0).state) hcond
    exact ⟨hnoop.1, hnoop.2.1⟩
  · intro cfg2 env2 ndl st h2
    have hstate : (SyncManager.perform_sync cfg2 env2 (.ok [] ndl) st).state
        = SyncManager.summary cfg2 env2
            (SyncManager.save_phase cfg2 env2 ndl
              (SyncManager.set_initial_delta cfg2 env2 ndl
                (SyncManager.reset_pass st))).fst := rfl
    rw [hstate, sm_summary_id cfg2 env2 _ (Or.inr (Or.inr h2)),
      (sm_save_phase_frame cfg2 env2 ndl _).1,
      (sm_set_initial_frame cfg2 env2 ndl _).1]
    rfl

/-- Witness for c8_idempotent with one remote file. -/
theorem c8_witness :
    (ManualSyncManager.perform_sync
      { check_only := false, test_mode := false, max_files := none,
        target_folder := none, root_only := false, force_full_sync := false,
        force_save_state := false, file_types_to_exclude := [],
        paths_to_exclude := [] }
      { download_path := "dl", parse_time := fun _ => 0, now_mtime := 5,
        download_ok := fun _ => true, mkdir_ok := fun _ => true, time := 9,
        root_children := [], tz_aware := fun _ => true }
      (.ok [{ id := "1", name := "a.txt", parentRefPath := "/drive/root:",
              isFile := true, isFolder := false, deleted := false, size := 10,
              lastModifiedDateTime := some "2024-01-01T00:00:00Z" }])
      (ManualSyncManager.perform_sync
        { check_only := false, test_mode := false, max_files := none,
          target_folder := none, root_only := false, force_full_sync := false,
          force_save_state := false, file_types_to_exclude := [],
          paths_to_exclude := [] }
        { download_path := "dl", parse_time := fun _ => 0, now_mtime := 5,
          download_ok := fun _ => true, mkdir_ok := fun _ => true, time := 9,
          root_children := [], tz_aware := fun _ => true }
        (.ok [{ id := "1", name := "a.txt", parentRefPath := "/drive/root:",
                isFile := true, isFolder := false, deleted := false, size := 10,
                lastModifiedDateTime := some "2024-01-01T00:00:00Z" }])
        { delta_link := none, file_state := fun _ => none, files_processed := 0,
          fs := fun _ => none, dirs := fun _ => false, downloads := [],
          would_log := [], errors := [],
          deletions := [] }).state).state.downloads = [] :=
  (c8_idempotent
    { check_only := false, test_mode := false, max_files := none,
      target_folder := none, root_only := false, force_full_sync := false,
      force_save_state := false, file_types_to_exclude := [],
      paths_to_exclude := [] }
    { download_path := "dl", parse_time := fun _ => 0, now_mtime := 5,
      download_ok := fun _ => true, mkdir_ok := fun _ => true, time := 9,
      root_children := [], tz_aware := fun _ => true }
    [{ id := "1", name := "a.txt", parentRefPath := "/drive/root:",
       isFile := true, isFolder := false, deleted := false, size := 10,
       lastModifiedDateTime := some "2024-01-01T00:00:00Z" }]
    { delta_link := none, file_state := fun _ => none, files_processed := 0,
      fs := fun _ => none, dirs := fun _ => false, downloads := [],
      would_log := [], errors := [], deletions := [] }
    rfl rfl (fun _ => rfl) (by decide) (by decide) (by decide)).1.1

end SPD
